import Mathlib

/-!
# Verification of the Bloom repetition-counting pipeline

A shallow embedding, in Lean 4, of the detection-to-event pipeline of the
Bloom fitness-tracking app:

* the per-frame dribble-detection hooks
  (`src/ml/useBallOnlyDribbleDetection.ts`,
  `src/ml/usePoseOnlyDribbleDetection.ts`, `src/ml/useDribbleDetection.ts`),
* the frame-processor normalizer and temporal smoother of
  `src/components/camera/CameraView.tsx`.

JavaScript numbers are modelled as rationals (`ℚ`); timestamps
(`Date.now()`) as integers (`ℤ`).  Where `NaN` or `undefined` can flow
through the worklet's arithmetic (raw model-output buffers), values are
modelled as `Option ℚ` with `none` standing for NaN/undefined, and the
JavaScript comparison operators are modelled as returning `false` on
`none`.  React state setters and refs are modelled by pure record
updates on an explicit hook-state record; each callback becomes a pure
state-transition function.
-/

namespace Bloom

/-- `DetectedObject.boundingBox` from `src/ml/types.ts`: normalized
top-left corner plus width/height. -/
structure BoundingBox where
  x : ℚ
  y : ℚ
  width : ℚ
  height : ℚ
deriving Repr, DecidableEq

/-- `DetectedObject` from `src/ml/types.ts`. -/
structure DetectedObject where
  label : String
  confidence : ℚ
  boundingBox : BoundingBox
deriving Repr, DecidableEq

/-- `BallPosition` from `src/ml/types.ts` (the fields used by
`useDribbleDetection`). -/
structure BallPosition where
  x : ℚ
  y : ℚ
  timestamp : ℤ
deriving Repr, DecidableEq

/-- A pose keypoint (`Point` in `src/ml/types.ts`).  The `z` coordinate is
never read by the dribble hooks and is omitted. -/
structure Point where
  x : ℚ
  y : ℚ
  visibility : Option ℚ
deriving Repr, DecidableEq

/-- `PoseLandmarks` restricted to the two fields the dribble-detection
hooks actually read (`leftWrist`, `rightWrist`); the remaining 31
landmarks are never consulted by the code under verification. -/
structure PoseLandmarks where
  leftWrist : Point
  rightWrist : Point
deriving Repr, DecidableEq

/-! ## Ball-only dribble detection (`useBallOnlyDribbleDetection.ts`) -/

/-- `DribblePhase` of `useBallOnlyDribbleDetection.ts`:
`'idle' | 'ball_down' | 'ball_up'`. -/
inductive BallPhase where
  | idle
  | ball_down
  | ball_up
deriving Repr, DecidableEq

/-- The configuration record shape of `BALL_DRIBBLE_CONFIG`. -/
structure BallConfig where
  downThreshold : ℚ
  upThreshold : ℚ
  minDribbleInterval : ℤ
  smoothing : ℚ
deriving Repr, DecidableEq

/-- `BALL_DRIBBLE_CONFIG` from `useBallOnlyDribbleDetection.ts`. -/
def BALL_DRIBBLE_CONFIG : BallConfig :=
  { downThreshold := 8/100
    upThreshold := 6/100
    minDribbleInterval := 200
    smoothing := 3/10 }

/-- `DribbleState` of `useBallOnlyDribbleDetection.ts`. -/
structure BallDribbleState where
  phase : BallPhase
  lastDribbleTime : ℤ
  previousBallY : Option ℚ
  highestBallY : Option ℚ
  lowestBallY : Option ℚ
deriving Repr, DecidableEq

/-- The initial / reset `DribbleState` value used by the hook, its
`startTracking` and its `reset`. -/
def initBallState : BallDribbleState :=
  { phase := .idle
    lastDribbleTime := 0
    previousBallY := none
    highestBallY := none
    lowestBallY := none }

/-- The full observable state of one `useBallOnlyDribbleDetection` hook
instance: React state (`dribbleCount`, `isTracking`) plus the refs
(`stateRef`, `smoothedBallY`). -/
structure BallHook where
  dribbleCount : ℕ
  isTracking : Bool
  state : BallDribbleState
  smoothedBallY : Option ℚ
deriving Repr, DecidableEq

/-- Hook construction (`useState(0)`, `useState(false)`, the `useRef`
initial values).  The hook performs no validation of any configuration:
`BALL_DRIBBLE_CONFIG` is a module constant and the initial state does not
depend on it. -/
def mkBallHook (_cfg : BallConfig) : BallHook :=
  { dribbleCount := 0
    isTracking := false
    state := initBallState
    smoothedBallY := none }

/-- `objects.find(obj => obj.label === 'basketball' || obj.label === 'sports ball')`. -/
def findBall (objects : List DetectedObject) : Option DetectedObject :=
  objects.find? fun obj => obj.label == "basketball" || obj.label == "sports ball"

/-- The phase state machine of `onObjectsUpdate`
(`useBallOnlyDribbleDetection.ts`, the code after the initialization
early-return), acting on `stateRef.current` with the already smoothed
`ballY` and the current time `now`.  The returned `Bool` is `true`
exactly when `setDribbleCount(prev => prev + 1)` runs. -/
def ballMachine (cfg : BallConfig) (st : BallDribbleState) (ballY : ℚ) (now : ℤ) :
    BallDribbleState × Bool :=
  if st.phase = .idle ∨ st.phase = .ball_up then
    -- track the highest point (smallest Y)
    let highest := if ballY < st.highestBallY.getD ballY then some ballY else st.highestBallY
    if ballY > highest.getD 0 + cfg.downThreshold then
      ({ st with phase := .ball_down, highestBallY := highest,
                 lowestBallY := some ballY, previousBallY := some ballY }, false)
    else
      ({ st with highestBallY := highest, previousBallY := some ballY }, false)
  else
    -- phase = ball_down: track the lowest point (largest Y)
    let lowest := if ballY > st.lowestBallY.getD 0 then some ballY else st.lowestBallY
    if ballY < lowest.getD 1 - cfg.upThreshold then
      if now - st.lastDribbleTime ≥ cfg.minDribbleInterval then
        ({ st with phase := .ball_up, lastDribbleTime := now, highestBallY := some ballY,
                   lowestBallY := lowest, previousBallY := some ballY }, true)
      else
        ({ st with lowestBallY := lowest, previousBallY := some ballY }, false)
    else
      ({ st with lowestBallY := lowest, previousBallY := some ballY }, false)

/-- `onObjectsUpdate` of `useBallOnlyDribbleDetection.ts`, as a pure
transition on the hook state; `now` is the value `Date.now()` returns
during the call.  The second component records whether a repetition
event was emitted. -/
def ballStepEv (cfg : BallConfig) (h : BallHook) (now : ℤ) (objects : List DetectedObject) :
    BallHook × Bool :=
  if h.isTracking then
    match findBall objects with
    | none => (h, false)
    | some ball =>
      let rawBallY := ball.boundingBox.y + ball.boundingBox.height / 2
      let ballY :=
        match h.smoothedBallY with
        | none => rawBallY
        | some s => s * cfg.smoothing + rawBallY * (1 - cfg.smoothing)
      match h.state.previousBallY with
      | none =>
        let st := { h.state with previousBallY := some ballY, highestBallY := some ballY,
                                 lowestBallY := some ballY }
        ({ h with smoothedBallY := some ballY, state := st }, false)
      | some _ =>
        let r := ballMachine cfg h.state ballY now
        let count := h.dribbleCount + (if r.2 then 1 else 0)
        ({ h with smoothedBallY := some ballY, state := r.1, dribbleCount := count }, r.2)
  else (h, false)

/-- `onObjectsUpdate` ignoring the event flag. -/
def ballOnObjectsUpdate (cfg : BallConfig) (h : BallHook) (now : ℤ)
    (objects : List DetectedObject) : BallHook :=
  (ballStepEv cfg h now objects).1

/-- `startTracking` of `useBallOnlyDribbleDetection.ts`. -/
def ballStartTracking (h : BallHook) : BallHook :=
  { h with isTracking := true, state := initBallState, smoothedBallY := none }

/-- `stopTracking` of `useBallOnlyDribbleDetection.ts`. -/
def ballStopTracking (h : BallHook) : BallHook :=
  { h with isTracking := false }

/-- `reset` of `useBallOnlyDribbleDetection.ts`. -/
def ballReset (h : BallHook) : BallHook :=
  { h with dribbleCount := 0, state := initBallState, smoothedBallY := none }

/-- One delivered frame: the `Date.now()` time of the callback and the
detected-object list handed to `onObjectsUpdate`. -/
abbrev BallFrame := ℤ × List DetectedObject

/-- Process a sequence of `onObjectsUpdate` calls, collecting the times
at which repetition events were emitted. -/
def ballRunEv (cfg : BallConfig) : BallHook → List BallFrame → BallHook × List ℤ
  | h, [] => (h, [])
  | h, (now, objs) :: rest =>
    let r := ballStepEv cfg h now objs
    let t := ballRunEv cfg r.1 rest
    (t.1, (if r.2 then [now] else []) ++ t.2)

/-! ## Pose-only dribble detection (`usePoseOnlyDribbleDetection.ts`) -/

/-- `DribblePhase` of `usePoseOnlyDribbleDetection.ts`:
`'idle' | 'hand_down' | 'hand_up'`. -/
inductive PosePhase where
  | idle
  | hand_down
  | hand_up
deriving Repr, DecidableEq

/-- `HandSide`: `'left' | 'right'`. -/
inductive HandSide where
  | left
  | right
deriving Repr, DecidableEq

/-- The configuration record shape of `POSE_DRIBBLE_CONFIG`. -/
structure PoseConfig where
  downThreshold : ℚ
  upThreshold : ℚ
  minDribbleInterval : ℤ
  smoothing : ℚ
  minWristConfidence : ℚ
deriving Repr, DecidableEq

/-- `POSE_DRIBBLE_CONFIG` from `usePoseOnlyDribbleDetection.ts`. -/
def POSE_DRIBBLE_CONFIG : PoseConfig :=
  { downThreshold := 8/100
    upThreshold := 6/100
    minDribbleInterval := 200
    smoothing := 4/10
    minWristConfidence := 3/10 }

/-- `DribbleState` of `usePoseOnlyDribbleDetection.ts`. -/
structure PoseDribbleState where
  phase : PosePhase
  lastDribbleTime : ℤ
  activeSide : Option HandSide
  previousWristY : Option ℚ
  lowestWristY : Option ℚ
deriving Repr, DecidableEq

/-- The initial / reset `DribbleState` of the pose-only hook. -/
def initPoseState : PoseDribbleState :=
  { phase := .idle
    lastDribbleTime := 0
    activeSide := none
    previousWristY := none
    lowestWristY := none }

/-- The full observable state of one `usePoseOnlyDribbleDetection` hook
instance: React state (`dribbleCount`, `isTracking`, `activeSide`,
`currentPose`) plus the refs (`stateRef`, `smoothedLeftWristY`,
`smoothedRightWristY`). -/
structure PoseHook where
  dribbleCount : ℕ
  isTracking : Bool
  activeSide : Option HandSide
  currentPose : Option PoseLandmarks
  state : PoseDribbleState
  smoothedLeftWristY : Option ℚ
  smoothedRightWristY : Option ℚ
deriving Repr, DecidableEq

/-- Hook construction for `usePoseOnlyDribbleDetection` (initial
`useState`/`useRef` values; no configuration validation exists). -/
def mkPoseHook (_cfg : PoseConfig) : PoseHook :=
  { dribbleCount := 0
    isTracking := false
    activeSide := none
    currentPose := none
    state := initPoseState
    smoothedLeftWristY := none
    smoothedRightWristY := none }

/-- The phase state machine of `onPoseUpdate`
(`usePoseOnlyDribbleDetection.ts`, after the initialization
early-return); `prev` is the non-null `state.previousWristY` and
`wristY` the selected smoothed wrist position.  The `Bool` is `true`
exactly when `setDribbleCount(prev => prev + 1)` runs. -/
def poseMachine (cfg : PoseConfig) (st : PoseDribbleState) (prev wristY : ℚ) (now : ℤ) :
    PoseDribbleState × Bool :=
  if st.phase = .idle ∨ st.phase = .hand_up then
    if wristY > prev + cfg.downThreshold then
      ({ st with phase := .hand_down, lowestWristY := some wristY,
                 previousWristY := some wristY }, false)
    else
      ({ st with previousWristY := some wristY }, false)
  else
    -- phase = hand_down: track the lowest point
    let lowest := if wristY > st.lowestWristY.getD 0 then some wristY else st.lowestWristY
    if wristY < lowest.getD 0 - cfg.upThreshold then
      if now - st.lastDribbleTime ≥ cfg.minDribbleInterval then
        ({ st with phase := .hand_up, lastDribbleTime := now, lowestWristY := lowest,
                   previousWristY := some wristY }, true)
      else
        ({ st with lowestWristY := lowest, previousWristY := some wristY }, false)
    else
      ({ st with lowestWristY := lowest, previousWristY := some wristY }, false)

/-- The tail of `onPoseUpdate` (`usePoseOnlyDribbleDetection.ts`): the
initialization early-return when `state.previousWristY` is null, else
the phase state machine. -/
def poseApplyMachine (cfg : PoseConfig) (h : PoseHook) (wristY : ℚ) (now : ℤ) :
    PoseHook × Bool :=
  match h.state.previousWristY with
  | none =>
    let st := { h.state with previousWristY := some wristY, lowestWristY := some wristY }
    ({ h with state := st }, false)
  | some prev =>
    let r := poseMachine cfg h.state prev wristY now
    let count := h.dribbleCount + (if r.2 then 1 else 0)
    ({ h with state := r.1, dribbleCount := count }, r.2)

/-- `onPoseUpdate` of `usePoseOnlyDribbleDetection.ts` as a pure
transition; note that `setCurrentPose(pose)` runs before both the
null-pose and the `isTracking` guard.  The `Bool` records an emitted
repetition event. -/
def poseStepEv (cfg : PoseConfig) (h : PoseHook) (now : ℤ) (pose : Option PoseLandmarks) :
    PoseHook × Bool :=
  let h := { h with currentPose := pose }
  match pose with
  | none => (h, false)
  | some p =>
    if h.isTracking then
      let leftConfident := p.leftWrist.visibility.getD 0 ≥ cfg.minWristConfidence
      let rightConfident := p.rightWrist.visibility.getD 0 ≥ cfg.minWristConfidence
      if ¬ leftConfident ∧ ¬ rightConfident then (h, false)
      else
        let sL :=
          if leftConfident then
            match h.smoothedLeftWristY with
            | none => some p.leftWrist.y
            | some s => some (s * cfg.smoothing + p.leftWrist.y * (1 - cfg.smoothing))
          else h.smoothedLeftWristY
        let sR :=
          if rightConfident then
            match h.smoothedRightWristY with
            | none => some p.rightWrist.y
            | some s => some (s * cfg.smoothing + p.rightWrist.y * (1 - cfg.smoothing))
          else h.smoothedRightWristY
        let sel : ℚ × HandSide :=
          if leftConfident ∧ rightConfident then
            if sL.getD 0 > sR.getD 0 then (sL.getD 0, .left) else (sR.getD 0, .right)
          else if leftConfident then (sL.getD 0, .left)
          else (sR.getD 0, .right)
        let wristY := sel.1
        let side := sel.2
        let h := { h with smoothedLeftWristY := sL, smoothedRightWristY := sR }
        let h :=
          if h.state.activeSide ≠ some side then
            { h with activeSide := some side, state := { h.state with activeSide := some side } }
          else h
        poseApplyMachine cfg h wristY now
    else (h, false)

/-- `onPoseUpdate` ignoring the event flag. -/
def poseOnPoseUpdate (cfg : PoseConfig) (h : PoseHook) (now : ℤ)
    (pose : Option PoseLandmarks) : PoseHook :=
  (poseStepEv cfg h now pose).1

/-- `startTracking` of `usePoseOnlyDribbleDetection.ts`. -/
def poseStartTracking (h : PoseHook) : PoseHook :=
  { h with isTracking := true, state := initPoseState,
           smoothedLeftWristY := none, smoothedRightWristY := none }

/-- `stopTracking` of `usePoseOnlyDribbleDetection.ts`. -/
def poseStopTracking (h : PoseHook) : PoseHook :=
  { h with isTracking := false }

/-- `reset` of `usePoseOnlyDribbleDetection.ts`. -/
def poseReset (h : PoseHook) : PoseHook :=
  { h with dribbleCount := 0, activeSide := none, currentPose := none,
           state := initPoseState, smoothedLeftWristY := none, smoothedRightWristY := none }

/-- One delivered pose frame: the `Date.now()` time and the pose handed
to `onPoseUpdate`. -/
abbrev PoseFrame := ℤ × Option PoseLandmarks

/-- Process a sequence of `onPoseUpdate` calls, collecting emission times. -/
def poseRunEv (cfg : PoseConfig) : PoseHook → List PoseFrame → PoseHook × List ℤ
  | h, [] => (h, [])
  | h, (now, pose) :: rest =>
    let r := poseStepEv cfg h now pose
    let t := poseRunEv cfg r.1 rest
    (t.1, (if r.2 then [now] else []) ++ t.2)

/-! ## Combined pose+object dribble detection (`useDribbleDetection.ts`) -/

/-- `handPreference` values of `DRIBBLE_DETECTION_CONFIG`. -/
inductive HandPreference where
  | left
  | right
  | auto
deriving Repr, DecidableEq

/-- The configuration record shape of `DRIBBLE_DETECTION_CONFIG`
(`src/ml/config.ts`). -/
structure CombinedConfig where
  downThreshold : ℚ
  minDribbleInterval : ℤ
  handPreference : HandPreference
  positionSmoothing : ℚ
deriving Repr, DecidableEq

/-- `DRIBBLE_DETECTION_CONFIG` from `src/ml/config.ts`. -/
def DRIBBLE_DETECTION_CONFIG : CombinedConfig :=
  { downThreshold := 15/100
    minDribbleInterval := 150
    handPreference := .auto
    positionSmoothing := 1/10 }

/-- `DribbleState` of `useDribbleDetection.ts`. -/
structure CombinedState where
  phase : BallPhase
  lastDribbleTime : ℤ
  activeSide : Option HandSide
  previousBallY : Option ℚ
deriving Repr, DecidableEq

/-- The initial / reset `DribbleState` of the combined hook. -/
def initCombinedState : CombinedState :=
  { phase := .idle
    lastDribbleTime := 0
    activeSide := none
    previousBallY := none }

/-- The full observable state of one `useDribbleDetection` hook
instance: React state (`dribbleCount`, `isTracking`, `activeSide`) plus
the refs (`poseRef`, `ballPositionRef`, `stateRef`, `smoothedBallY`). -/
structure CombinedHook where
  dribbleCount : ℕ
  isTracking : Bool
  activeSide : Option HandSide
  poseRef : Option PoseLandmarks
  ballPositionRef : Option BallPosition
  state : CombinedState
  smoothedBallY : Option ℚ
deriving Repr, DecidableEq

/-- Hook construction for `useDribbleDetection` (initial values). -/
def mkCombinedHook : CombinedHook :=
  { dribbleCount := 0
    isTracking := false
    activeSide := none
    poseRef := none
    ballPositionRef := none
    state := initCombinedState
    smoothedBallY := none }

/-- `onPoseUpdate` of `useDribbleDetection.ts`: stores the pose in
`poseRef` unconditionally (no `isTracking` check). -/
def combinedOnPoseUpdate (h : CombinedHook) (pose : Option PoseLandmarks) : CombinedHook :=
  { h with poseRef := pose }

/-- `objects.find(obj => obj.label === 'sports ball' || obj.label === 'basketball')`. -/
def findBallCombined (objects : List DetectedObject) : Option DetectedObject :=
  objects.find? fun obj => obj.label == "sports ball" || obj.label == "basketball"

/-- `processDribble` of `useDribbleDetection.ts`.  The JavaScript
`ballPositionRef.current?.x || 0.5` treats both a missing ref and an
`x` equal to `0` (falsy) as `0.5`. -/
def processDribble (cfg : CombinedConfig) (h : CombinedHook) (now : ℤ) : CombinedHook :=
  match h.poseRef, h.smoothedBallY with
  | some pose, some ballY =>
    let sel : ℚ × HandSide :=
      match cfg.handPreference with
      | .auto =>
        let ballX :=
          match h.ballPositionRef with
          | none => 1/2
          | some bp => if bp.x = 0 then 1/2 else bp.x
        let leftDist := |pose.leftWrist.x - ballX|
        let rightDist := |pose.rightWrist.x - ballX|
        if leftDist < rightDist then (pose.leftWrist.y, .left) else (pose.rightWrist.y, .right)
      | .left => (pose.leftWrist.y, .left)
      | .right => (pose.rightWrist.y, .right)
    let wristY := sel.1
    let side := sel.2
    let h :=
      if h.state.activeSide ≠ some side then
        { h with activeSide := some side, state := { h.state with activeSide := some side } }
      else h
    let threshold := cfg.downThreshold
    if h.state.phase = .idle ∨ h.state.phase = .ball_up then
      if ballY > wristY + threshold then
        ({ h with state := { h.state with phase := .ball_down, previousBallY := some ballY } })
      else
        ({ h with state := { h.state with previousBallY := some ballY } })
    else
      if ballY ≤ wristY + threshold * (1/2) then
        if now - h.state.lastDribbleTime ≥ cfg.minDribbleInterval then
          let st := { h.state with phase := .ball_up, lastDribbleTime := now,
                                   previousBallY := some ballY }
          { h with state := st, dribbleCount := h.dribbleCount + 1 }
        else
          { h with state := { h.state with previousBallY := some ballY } }
      else
        { h with state := { h.state with previousBallY := some ballY } }
  | _, _ => h

/-- `onObjectsUpdate` of `useDribbleDetection.ts`, as a pure transition.
The ball-position ref and the smoothed ball position are updated before
(and regardless of) the `isTracking` check; only `processDribble` is
gated on `isTracking`. -/
def combinedOnObjectsUpdate (cfg : CombinedConfig) (h : CombinedHook) (now : ℤ)
    (objects : List DetectedObject) : CombinedHook :=
  match findBallCombined objects with
  | none => { h with ballPositionRef := none }
  | some ball =>
    let centerY := ball.boundingBox.y + ball.boundingBox.height / 2
    let centerX := ball.boundingBox.x + ball.boundingBox.width / 2
    let smoothed :=
      match h.smoothedBallY with
      | none => centerY
      | some s => s * cfg.positionSmoothing + centerY * (1 - cfg.positionSmoothing)
    let h := { h with ballPositionRef := some ⟨centerX, centerY, now⟩,
                      smoothedBallY := some smoothed }
    if h.isTracking then processDribble cfg h now else h

/-- `startTracking` of `useDribbleDetection.ts`. -/
def combinedStartTracking (h : CombinedHook) : CombinedHook :=
  { h with isTracking := true, state := initCombinedState, smoothedBallY := none }

/-- `stopTracking` of `useDribbleDetection.ts`. -/
def combinedStopTracking (h : CombinedHook) : CombinedHook :=
  { h with isTracking := false }

/-- `reset` of `useDribbleDetection.ts`. -/
def combinedReset (h : CombinedHook) : CombinedHook :=
  { h with dribbleCount := 0, activeSide := none, state := initCombinedState,
           smoothedBallY := none }

/-! ## Frame processor: normalizer and temporal smoother
(`src/components/camera/CameraView.tsx`)

Raw model-output buffers (`Float32Array`) are modelled as
`List (Option ℚ)`: `none` stands for a NaN entry, and reading past the
end of a buffer (which in JavaScript yields `undefined`) is also read
as `none`.  Every JavaScript comparison involving NaN or `undefined`
is `false`, which the `js*` helpers reproduce. -/

/-- Read `buffer[i]`: out-of-range reads give `undefined` (`none`). -/
def jsRead (buffer : List (Option ℚ)) (i : ℕ) : Option ℚ :=
  buffer.getD i none

/-- JavaScript `v > b` for possibly-NaN `v` and an actual number `b`. -/
def jsGtOpt (v : Option ℚ) (b : ℚ) : Bool :=
  match v with
  | some q => decide (b < q)
  | none => false

/-- JavaScript `v >= b` for possibly-NaN `v` and an actual number `b`. -/
def jsGeOpt (v : Option ℚ) (b : ℚ) : Bool :=
  match v with
  | some q => decide (b ≤ q)
  | none => false

/-- `targetClass === -1 || classId === targetClass` with
`classId = Math.round(raw)`; `Math.round` of NaN is NaN and
`NaN === x` is `false`. -/
def matchesTarget (targetClass : ℤ) (cls : Option ℚ) : Bool :=
  targetClass == -1 ||
    (match cls with
     | some c => round c == targetClass
     | none => false)

/-- One candidate record of a raw frame: its confidence and class reads
plus its box reads already arranged as `(x1, y1, x2, y2)`. -/
structure RawCandidate where
  conf : Option ℚ
  cls : Option ℚ
  x1 : Option ℚ
  y1 : Option ℚ
  x2 : Option ℚ
  y2 : Option ℚ
deriving Repr, DecidableEq

/-- The candidate records of a YOLO-format single-tensor output
(`[x1, y1, x2, y2, conf, class]` per detection slot). -/
def yoloCandidates (numDetections valuesPerDetection : ℕ) (output : List (Option ℚ)) :
    List RawCandidate :=
  (List.range numDetections).map fun i =>
    let offset := i * valuesPerDetection
    { conf := jsRead output (offset + 4)
      cls := jsRead output (offset + 5)
      x1 := jsRead output (offset + 0)
      y1 := jsRead output (offset + 1)
      x2 := jsRead output (offset + 2)
      y2 := jsRead output (offset + 3) }

/-- The candidate records of an EfficientDet-format multi-tensor output:
parallel `boxes` (`[y1, x1, y2, x2]` per slot), `classes` and `scores`
arrays. -/
def effCandidates (numDetections : ℕ) (boxes classes scores : List (Option ℚ)) :
    List RawCandidate :=
  (List.range numDetections).map fun i =>
    let boxOffset := i * 4
    { conf := jsRead scores i
      cls := jsRead classes i
      x1 := jsRead boxes (boxOffset + 1)
      y1 := jsRead boxes (boxOffset + 0)
      x2 := jsRead boxes (boxOffset + 3)
      y2 := jsRead boxes (boxOffset + 2) }

/-- The best-detection selection loop of the frame processor:
`matchesTarget && confidence > bestScore && confidence >= minConfidence`
updates the running best (`bestScore` starts at `0`). -/
def selectBestAux (minConfidence : ℚ) (targetClass : ℤ) :
    List RawCandidate → ℚ → Option RawCandidate → ℚ × Option RawCandidate
  | [], score, best => (score, best)
  | c :: cs, score, best =>
    if matchesTarget targetClass c.cls && jsGtOpt c.conf score && jsGeOpt c.conf minConfidence then
      selectBestAux minConfidence targetClass cs (c.conf.getD 0) (some c)
    else
      selectBestAux minConfidence targetClass cs score best

/-- The selected best candidate of a frame (`bestIdx >= 0` in the
source corresponds to `some`). -/
def selectBest (minConfidence : ℚ) (targetClass : ℤ) (cands : List RawCandidate) :
    Option RawCandidate :=
  (selectBestAux minConfidence targetClass cands 0 none).2

/-- A bounding-box record as produced by the worklet; coordinates can be
NaN when the raw buffer carried NaN values. -/
structure JRect where
  x : Option ℚ
  y : Option ℚ
  width : Option ℚ
  height : Option ℚ
deriving Repr, DecidableEq

/-- A `DetectedObject` as produced by the worklet. -/
structure JDetection where
  label : String
  confidence : ℚ
  boundingBox : JRect
deriving Repr, DecidableEq

/-- JavaScript `a - b` on possibly-NaN values. -/
def jsSub (a b : Option ℚ) : Option ℚ :=
  match a, b with
  | some x, some y => some (x - y)
  | _, _ => none

/-- Corner-form to top-left + size conversion with clamping:
`x, y` clamp to `[0, 1]`; `width, height` clamp to `[0.01, 1]`
(`Math.max`/`Math.min` propagate NaN). -/
def clampBox (x1 y1 x2 y2 : Option ℚ) : JRect :=
  { x := x1.map fun v => max 0 (min 1 v)
    y := y1.map fun v => max 0 (min 1 v)
    width := (jsSub x2 x1).map fun v => max (1/100) (min 1 v)
    height := (jsSub y2 y1).map fun v => max (1/100) (min 1 v) }

/-- The detection built from the selected candidate (label is the fixed
string `'basketball'`, confidence is `bestScore`). -/
def buildDetection (c : RawCandidate) : JDetection :=
  { label := "basketball"
    confidence := c.conf.getD 0
    boundingBox := clampBox c.x1 c.y1 c.x2 c.y2 }

/-- The module-level smoothing cells of `CameraView.tsx`:
`lastDetection`, `framesSinceLastDetection`, `lastDetectionConfidence`. -/
structure SmootherState where
  lastDetection : Option JDetection
  framesSinceLastDetection : ℕ
  lastDetectionConfidence : ℚ
deriving Repr, DecidableEq

/-- The initial values of the smoothing cells. -/
def initSmoother : SmootherState :=
  { lastDetection := none
    framesSinceLastDetection := 0
    lastDetectionConfidence := 0 }

/-- The detection-settings fields of `YOLO_CONFIG` /
`MLSettingsContext` consulted by the frame processor. -/
structure DetectionSettings where
  minConfidence : ℚ
  targetClass : ℤ
  maxFramesToKeep : ℕ
  smoothingDecay : ℚ
deriving Repr, DecidableEq

/-- The defaults of `YOLO_CONFIG` (`src/ml/config.ts`). -/
def YOLO_CONFIG : DetectionSettings :=
  { minConfidence := 10/100
    targetClass := 32
    maxFramesToKeep := 10
    smoothingDecay := 8/10 }

/-- The tail of the frame processor: either record and emit the fresh
best detection, or (`bestIdx < 0`) increment `framesSinceLastDetection`
and, while within `maxFramesToKeep`, re-emit the last known detection
with confidence `lastDetectionConfidence * smoothingDecay ^ frames`. -/
def emitDetections (s : DetectionSettings) (st : SmootherState) (best : Option RawCandidate) :
    SmootherState × List JDetection :=
  match best with
  | some c =>
    let d := buildDetection c
    ({ lastDetection := some d
       framesSinceLastDetection := 0
       lastDetectionConfidence := c.conf.getD 0 }, [d])
  | none =>
    let frames := st.framesSinceLastDetection + 1
    let st := { st with framesSinceLastDetection := frames }
    match st.lastDetection with
    | some last =>
      if frames ≤ s.maxFramesToKeep then
        let decayed := st.lastDetectionConfidence * s.smoothingDecay ^ frames
        (st, [{ last with confidence := decayed }])
      else (st, [])
    | none => (st, [])

/-- Output-format descriptor of the active model (`YOLO_MODELS`). -/
inductive OutputFormat where
  | yolo
  | efficientdet
deriving Repr, DecidableEq

/-- The per-model format fields of `YOLO_MODELS` (`src/ml/config.ts`). -/
structure ModelConfig where
  numDetections : ℕ
  valuesPerDetection : ℕ
  outputFormat : OutputFormat
deriving Repr, DecidableEq

/-- `YOLO_MODELS.yolo26n_float16` output shape. -/
def yolo26n_float16 : ModelConfig :=
  { numDetections := 300, valuesPerDetection := 6, outputFormat := .yolo }

/-- `YOLO_MODELS.efficientdet_lite0` output shape. -/
def efficientdet_lite0 : ModelConfig :=
  { numDetections := 25, valuesPerDetection := 4, outputFormat := .efficientdet }

/-- One frame of the object-detection part of the frame processor, from
the raw output tensors to the emitted `DetectedObject[]`; `frameStart`
is the `Date.now()` value read at the top of the worklet.  Result
`none` in the second component means the frame was dropped without any
`runObjectOnJS` call, leaving the smoothing cells untouched (every
throw lands in the frame processor's `catch`):

* `objectOutputs.length < 1` — the emission guard fails;
* the periodic diagnostic block, run when `frameStart % 1000 < 50`,
  threw.  In the YOLO branch it calls `conf.toFixed(2)` on the
  confidence reads of slots 0–2, and `undefined.toFixed` throws
  exactly when a read is out of range, i.e. when
  `output.length ≤ 2 * valuesPerDetection + 4` (largest read index;
  an in-range NaN stringifies without throwing, and
  `Math.round(undefined)` is NaN, not a throw).  In the EfficientDet
  branch it reads `classes.length`/`scores.length`, throwing when the
  tensors are missing (`outputs.length < 3`), then `scores[0..2]`,
  throwing via `toFixed` when `scores` has fewer than 3 entries;
* the EfficientDet selection loop indexed a missing `scores` tensor
  (`undefined[i]`, any timestamp, when at least one slot is scanned).

The earlier timing block (output lengths and `first3`) only reads
defined `Float32Array` elements and cannot throw, so it is omitted. -/
def processFrame (mc : ModelConfig) (s : DetectionSettings) (st : SmootherState)
    (frameStart : ℤ) (outputs : List (List (Option ℚ))) :
    SmootherState × Option (List JDetection) :=
  if outputs.length ≥ 1 then
    match mc.outputFormat with
    | .yolo =>
      let output := outputs.getD 0 []
      if frameStart % 1000 < 50 ∧ output.length ≤ 2 * mc.valuesPerDetection + 4 then
        (st, none)
      else
        let cands := yoloCandidates mc.numDetections mc.valuesPerDetection output
        let r := emitDetections s st (selectBest s.minConfidence s.targetClass cands)
        (r.1, some r.2)
    | .efficientdet =>
      if frameStart % 1000 < 50 ∧
          (outputs.length < 3 ∨ (outputs.getD 2 []).length < 3) then
        (st, none)
      else if outputs.length < 3 ∧ 0 < mc.numDetections then (st, none)
      else
        let cands := effCandidates mc.numDetections (outputs.getD 0 [])
          (outputs.getD 1 []) (outputs.getD 2 [])
        let r := emitDetections s st (selectBest s.minConfidence s.targetClass cands)
        (r.1, some r.2)
  else (st, none)

/-- The smoothing cells after `k` further frames with no fresh
detection. -/
def absentIter (s : DetectionSettings) (st : SmootherState) : ℕ → SmootherState
  | 0 => st
  | k + 1 => (emitDetections s (absentIter s st k) none).1

/-! ## Helper lemmas -/

/-- Each element of a time list exceeds its predecessor by at least `m`,
anchored at `t`. -/
def ChainLB (m : ℤ) : ℤ → List ℤ → Prop
  | _, [] => True
  | t, e :: es => m ≤ e - t ∧ ChainLB m e es

theorem ChainLB.chain' {m : ℤ} :
    ∀ {es : List ℤ} {t : ℤ}, ChainLB m t es → List.Chain' (fun a b => m ≤ b - a) es
  | [], _, _ => List.chain'_nil
  | [_], _, _ => List.chain'_singleton _
  | _ :: _ :: _, _, h =>
    List.Chain'.cons h.2.1 (ChainLB.chain' h.2)

theorem ballMachine_event_time (cfg : BallConfig) (st : BallDribbleState) (y : ℚ) (now : ℤ)
    (h : (ballMachine cfg st y now).2 = true) :
    cfg.minDribbleInterval ≤ now - st.lastDribbleTime ∧
      (ballMachine cfg st y now).1.lastDribbleTime = now := by
  unfold ballMachine at *
  split_ifs at * <;> try simp_all
  all_goals (split_ifs at * <;> simp_all)

theorem ballMachine_no_event_time (cfg : BallConfig) (st : BallDribbleState) (y : ℚ) (now : ℤ)
    (h : (ballMachine cfg st y now).2 = false) :
    (ballMachine cfg st y now).1.lastDribbleTime = st.lastDribbleTime := by
  unfold ballMachine at *
  split_ifs at * <;> try simp_all
  all_goals (split_ifs at * <;> simp_all)

theorem ballStepEv_count (cfg : BallConfig) (h : BallHook) (now : ℤ)
    (objects : List DetectedObject) :
    (ballStepEv cfg h now objects).1.dribbleCount
      = h.dribbleCount + (if (ballStepEv cfg h now objects).2 then 1 else 0) := by
  rcases ht : h.isTracking with _ | _
  · simp [ballStepEv, ht]
  · rcases hb : findBall objects with _ | ball
    · simp [ballStepEv, ht, hb]
    · rcases hp : h.state.previousBallY with _ | prev <;>
        simp [ballStepEv, ht, hb, hp]

theorem ballStepEv_event_time (cfg : BallConfig) (h : BallHook) (now : ℤ)
    (objects : List DetectedObject) (hev : (ballStepEv cfg h now objects).2 = true) :
    cfg.minDribbleInterval ≤ now - h.state.lastDribbleTime ∧
      (ballStepEv cfg h now objects).1.state.lastDribbleTime = now := by
  rcases ht : h.isTracking with _ | _
  · simp [ballStepEv, ht] at hev
  · rcases hb : findBall objects with _ | ball
    · simp [ballStepEv, ht, hb] at hev
    · rcases hp : h.state.previousBallY with _ | prev
      · simp [ballStepEv, ht, hb, hp] at hev
      · simp only [ballStepEv, ht, hb, hp] at hev ⊢
        exact ballMachine_event_time cfg h.state _ now hev

theorem ballStepEv_no_event_time (cfg : BallConfig) (h : BallHook) (now : ℤ)
    (objects : List DetectedObject) (hev : (ballStepEv cfg h now objects).2 = false) :
    (ballStepEv cfg h now objects).1.state.lastDribbleTime = h.state.lastDribbleTime := by
  rcases ht : h.isTracking with _ | _
  · simp [ballStepEv, ht]
  · rcases hb : findBall objects with _ | ball
    · simp [ballStepEv, ht, hb]
    · rcases hp : h.state.previousBallY with _ | prev
      · simp [ballStepEv, ht, hb, hp]
      · simp only [ballStepEv, ht, hb, hp] at hev ⊢
        exact ballMachine_no_event_time cfg h.state _ now hev


theorem ballRunEv_chainLB (cfg : BallConfig) :
    ∀ (frames : List BallFrame) (h : BallHook),
      ChainLB cfg.minDribbleInterval h.state.lastDribbleTime (ballRunEv cfg h frames).2
  | [], _ => trivial
  | (now, objs) :: rest, h => by
    show ChainLB _ _ (ballRunEv cfg h ((now, objs) :: rest)).2
    unfold ballRunEv
    rcases hev : (ballStepEv cfg h now objs).2 with _ | _
    · simp only [hev, if_neg, Bool.false_eq_true, not_false_eq_true, List.nil_append]
      have ih := ballRunEv_chainLB cfg rest (ballStepEv cfg h now objs).1
      rwa [ballStepEv_no_event_time cfg h now objs hev] at ih
    · have het := ballStepEv_event_time cfg h now objs hev
      simp only [hev, if_pos, List.cons_append, List.nil_append]
      refine ⟨het.1, ?_⟩
      have ih := ballRunEv_chainLB cfg rest (ballStepEv cfg h now objs).1
      rwa [het.2] at ih

theorem ballRunEv_count (cfg : BallConfig) :
    ∀ (frames : List BallFrame) (h : BallHook),
      (ballRunEv cfg h frames).1.dribbleCount
        = h.dribbleCount + (ballRunEv cfg h frames).2.length
  | [], _ => rfl
  | (now, objs) :: rest, h => by
    unfold ballRunEv
    have ih := ballRunEv_count cfg rest (ballStepEv cfg h now objs).1
    have hc := ballStepEv_count cfg h now objs
    rcases hev : (ballStepEv cfg h now objs).2 with _ | _ <;>
      (simp_all; try omega)

theorem poseApplyMachine_count (cfg : PoseConfig) (h : PoseHook) (w : ℚ) (now : ℤ) :
    (poseApplyMachine cfg h w now).1.dribbleCount
      = h.dribbleCount + (if (poseApplyMachine cfg h w now).2 then 1 else 0) := by
  rcases hp : h.state.previousWristY with _ | prev <;> simp [poseApplyMachine, hp]

theorem poseStepEv_count (cfg : PoseConfig) (h : PoseHook) (now : ℤ)
    (pose : Option PoseLandmarks) :
    (poseStepEv cfg h now pose).1.dribbleCount
      = h.dribbleCount + (if (poseStepEv cfg h now pose).2 then 1 else 0) := by
  rcases pose with _ | p
  · simp [poseStepEv]
  · rcases ht : h.isTracking with _ | _
    · simp [poseStepEv, ht]
    · by_cases hc : ¬ p.leftWrist.visibility.getD 0 ≥ cfg.minWristConfidence
          ∧ ¬ p.rightWrist.visibility.getD 0 ≥ cfg.minWristConfidence
      · simp [poseStepEv, ht, hc]
      · have key : ∀ (h2 : PoseHook) (w : ℚ), h2.dribbleCount = h.dribbleCount →
            (poseApplyMachine cfg h2 w now).1.dribbleCount
              = h.dribbleCount + (if (poseApplyMachine cfg h2 w now).2 then 1 else 0) := by
          intro h2 w hcount
          rw [poseApplyMachine_count, hcount]
        simp only [poseStepEv, ht, hc]
        apply key
        split_ifs <;> rfl

theorem poseRunEv_count (cfg : PoseConfig) :
    ∀ (frames : List PoseFrame) (h : PoseHook),
      (poseRunEv cfg h frames).1.dribbleCount
        = h.dribbleCount + (poseRunEv cfg h frames).2.length
  | [], _ => rfl
  | (now, pose) :: rest, h => by
    unfold poseRunEv
    have ih := poseRunEv_count cfg rest (poseStepEv cfg h now pose).1
    have hc := poseStepEv_count cfg h now pose
    rcases hev : (poseStepEv cfg h now pose).2 with _ | _ <;>
      (simp_all; try omega)

theorem ballStepEv_not_tracking (cfg : BallConfig) (h : BallHook) (now : ℤ)
    (objects : List DetectedObject) (ht : h.isTracking = false) :
    ballStepEv cfg h now objects = (h, false) := by
  simp [ballStepEv, ht]

theorem poseStepEv_not_tracking (cfg : PoseConfig) (h : PoseHook) (now : ℤ)
    (pose : Option PoseLandmarks) (ht : h.isTracking = false) :
    poseStepEv cfg h now pose = ({ h with currentPose := pose }, false) := by
  rcases pose with _ | p <;> simp [poseStepEv, ht]

theorem combinedStep_not_tracking (cfg : CombinedConfig) (h : CombinedHook) (now : ℤ)
    (objects : List DetectedObject) (ht : h.isTracking = false) :
    (combinedOnObjectsUpdate cfg h now objects).dribbleCount = h.dribbleCount ∧
      (combinedOnObjectsUpdate cfg h now objects).state = h.state := by
  rcases hb : findBallCombined objects with _ | ball <;>
    simp [combinedOnObjectsUpdate, hb, ht]

/-! ## Claim theorems -/

/-- C1: for every sequence of `onObjectsUpdate`/`onPoseUpdate` calls
delivered between two `reset()` calls, the exposed repetition count is
non-decreasing, changes only by increments of exactly 1 (one per
emitted repetition event), and `reset()` is the only operation that
sets it back to 0: each single callback changes the count by `1`
exactly when an event is emitted and by `0` otherwise; over a run the
count grows by exactly the number of emitted events (hence is
non-decreasing); `reset()` sets it to `0` while `startTracking()` and
`stopTracking()` leave it unchanged.  Stated for both the ball-only
and the pose-only hooks. -/
theorem repCount_monotone :
    (∀ (cfg : BallConfig) (h : BallHook) (now : ℤ) (objects : List DetectedObject),
       (ballStepEv cfg h now objects).1.dribbleCount
         = h.dribbleCount + (if (ballStepEv cfg h now objects).2 then 1 else 0)) ∧
    (∀ (cfg : BallConfig) (h : BallHook) (frames : List BallFrame),
       (ballRunEv cfg h frames).1.dribbleCount
         = h.dribbleCount + (ballRunEv cfg h frames).2.length ∧
       h.dribbleCount ≤ (ballRunEv cfg h frames).1.dribbleCount) ∧
    (∀ (cfg : PoseConfig) (h : PoseHook) (now : ℤ) (pose : Option PoseLandmarks),
       (poseStepEv cfg h now pose).1.dribbleCount
         = h.dribbleCount + (if (poseStepEv cfg h now pose).2 then 1 else 0)) ∧
    (∀ (cfg : PoseConfig) (h : PoseHook) (frames : List PoseFrame),
       (poseRunEv cfg h frames).1.dribbleCount
         = h.dribbleCount + (poseRunEv cfg h frames).2.length ∧
       h.dribbleCount ≤ (poseRunEv cfg h frames).1.dribbleCount) ∧
    (∀ h : BallHook,
       (ballReset h).dribbleCount = 0 ∧
       (ballStartTracking h).dribbleCount = h.dribbleCount ∧
       (ballStopTracking h).dribbleCount = h.dribbleCount) ∧
    (∀ h : PoseHook,
       (poseReset h).dribbleCount = 0 ∧
       (poseStartTracking h).dribbleCount = h.dribbleCount ∧
       (poseStopTracking h).dribbleCount = h.dribbleCount) := by
  refine ⟨ballStepEv_count, fun cfg h frames => ?_, poseStepEv_count,
    fun cfg h frames => ?_, fun h => ⟨rfl, rfl, rfl⟩, fun h => ⟨rfl, rfl, rfl⟩⟩
  · have := ballRunEv_count cfg frames h
    omega
  · have := poseRunEv_count cfg frames h
    omega

/-- C2: consecutive emitted repetition events are at least
`minDribbleInterval` apart (the emitted time list of any run is a
chain with gaps of at least the interval), and when the machine is in
the down phase and the rise condition holds but the interval has not
elapsed, the phase remains `ball_down` and no event is emitted on that
frame. -/
theorem debounce_spec :
    (∀ (cfg : BallConfig) (h : BallHook) (frames : List BallFrame),
       List.Chain' (fun t1 t2 => cfg.minDribbleInterval ≤ t2 - t1) (ballRunEv cfg h frames).2) ∧
    (∀ (cfg : BallConfig) (st : BallDribbleState) (y : ℚ) (now : ℤ),
       st.phase = .ball_down →
       y < (if y > st.lowestBallY.getD 0 then some y else st.lowestBallY).getD 1
           - cfg.upThreshold →
       now - st.lastDribbleTime < cfg.minDribbleInterval →
       (ballMachine cfg st y now).1.phase = .ball_down ∧
       (ballMachine cfg st y now).2 = false) := by
  constructor
  · intro cfg h frames
    exact (ballRunEv_chainLB cfg frames h).chain'
  · intro cfg st y now hph hrise hdeb
    have hnot : ¬ (st.phase = .idle ∨ st.phase = .ball_up) := by
      simp [hph]
    rw [ballMachine, if_neg hnot, if_pos hrise, if_neg (by omega)]
    exact ⟨hph, rfl⟩

/-- Witness for C2 at a concrete input: phase `ball_down`, lowest point
`1/2`, last event at time `0`, current smoothed position `3/10` (the
rise condition holds), current time `100` (only 100 ms since the last
event, below the 200 ms interval): the phase stays `ball_down` and no
event is emitted. -/
theorem debounce_spec_witness :
    (ballMachine BALL_DRIBBLE_CONFIG
        ⟨.ball_down, 0, some (1/2), some (1/2), some (1/2)⟩ (3/10) 100).1.phase
      = BallPhase.ball_down ∧
    (ballMachine BALL_DRIBBLE_CONFIG
        ⟨.ball_down, 0, some (1/2), some (1/2), some (1/2)⟩ (3/10) 100).2 = false :=
  debounce_spec.2 BALL_DRIBBLE_CONFIG ⟨.ball_down, 0, some (1/2), some (1/2), some (1/2)⟩
    (3/10) 100 rfl (by norm_num [BALL_DRIBBLE_CONFIG]) (by norm_num [BALL_DRIBBLE_CONFIG])

/-- A pose frame with only the left wrist confidently visible, at
vertical position `y`. -/
def leftWristPoseAt (y : ℚ) : PoseLandmarks :=
  { leftWrist := { x := 1/2, y := y, visibility := some 1 }
    rightWrist := { x := 1/2, y := 0, visibility := some 0 } }

/-- A slow monotone descent of the left wrist: each frame moves the
smoothed position down by less than `downThreshold`, but the total
drop from the initial peak exceeds `downThreshold`. -/
def slowDescentFrames : List PoseFrame :=
  [(0, some (leftWristPoseAt (3/10))), (33, some (leftWristPoseAt (7/20))),
   (66, some (leftWristPoseAt (2/5))), (99, some (leftWristPoseAt (9/20)))]

/-- Counterexample to C3: in the pose-only variant the down-transition
is NOT taken when the smoothed position exceeds the running-minimum
peak by more than `downThreshold`.  Feeding the slow descent, the
smoothed wrist positions are `3/10, 33/100, 93/250, 1047/2500`; their
running minimum (the peak) is `3/10`, and the final position exceeds
`3/10 + downThreshold = 19/50`, yet the machine is still in `idle`
(each single-frame increment stayed below the threshold, and the
pose-only variant compares against the previous frame only). -/
theorem pose_peak_counterexample :
    (poseRunEv POSE_DRIBBLE_CONFIG (poseStartTracking (mkPoseHook POSE_DRIBBLE_CONFIG))
        (slowDescentFrames.take 1)).1.smoothedLeftWristY = some (3/10) ∧
    (poseRunEv POSE_DRIBBLE_CONFIG (poseStartTracking (mkPoseHook POSE_DRIBBLE_CONFIG))
        (slowDescentFrames.take 2)).1.smoothedLeftWristY = some (33/100) ∧
    (poseRunEv POSE_DRIBBLE_CONFIG (poseStartTracking (mkPoseHook POSE_DRIBBLE_CONFIG))
        (slowDescentFrames.take 3)).1.smoothedLeftWristY = some (93/250) ∧
    (poseRunEv POSE_DRIBBLE_CONFIG (poseStartTracking (mkPoseHook POSE_DRIBBLE_CONFIG))
        slowDescentFrames).1.smoothedLeftWristY = some (1047/2500) ∧
    3/10 + POSE_DRIBBLE_CONFIG.downThreshold < 1047/2500 ∧
    (poseRunEv POSE_DRIBBLE_CONFIG (poseStartTracking (mkPoseHook POSE_DRIBBLE_CONFIG))
        slowDescentFrames).1.state.phase = PosePhase.idle ∧
    (poseRunEv POSE_DRIBBLE_CONFIG (poseStartTracking (mkPoseHook POSE_DRIBBLE_CONFIG))
        slowDescentFrames).2 = [] := by
  norm_num +decide [poseRunEv, poseStepEv, poseApplyMachine, poseMachine, poseStartTracking,
    mkPoseHook, initPoseState, POSE_DRIBBLE_CONFIG, slowDescentFrames, leftWristPoseAt]

/-- C3 as amended: the two pure variants use different down-transition
conventions.  The ball-only variant tracks `highestBallY` as the
running minimum of the smoothed position while in `{idle, ball_up}`
and transitions to `ball_down` exactly when the smoothed position
exceeds that continuously updated peak by more than `downThreshold`.
The pose-only variant, in `{idle, hand_up}`, transitions to
`hand_down` exactly when the smoothed position exceeds the
*immediately preceding frame's* smoothed position by more than
`downThreshold`; it keeps no running-minimum peak. -/
theorem down_transition_conventions :
    (∀ (cfg : BallConfig) (st : BallDribbleState) (y : ℚ) (now : ℤ) (hgh : ℚ),
       st.phase = .idle ∨ st.phase = .ball_up → st.highestBallY = some hgh →
       (ballMachine cfg st y now).1.highestBallY = some (min hgh y) ∧
       ((ballMachine cfg st y now).1.phase = .ball_down ↔ min hgh y + cfg.downThreshold < y)) ∧
    (∀ (cfg : PoseConfig) (st : PoseDribbleState) (prev y : ℚ) (now : ℤ),
       st.phase = .idle ∨ st.phase = .hand_up →
       ((poseMachine cfg st prev y now).1.phase = .hand_down ↔
         prev + cfg.downThreshold < y)) := by
  constructor
  · intro cfg st y now hgh hph hh
    have hmin : (if y < st.highestBallY.getD y then some y else st.highestBallY)
        = some (min hgh y) := by
      rw [hh]
      simp only [Option.getD_some]
      rcases lt_or_le y hgh with hlt | hle
      · rw [if_pos hlt, min_eq_right hlt.le]
      · rw [if_neg (not_lt.mpr hle), min_eq_left hle]
    rw [ballMachine, if_pos hph]
    simp only [hmin, Option.getD_some, gt_iff_lt]
    split_ifs with hdown
    · exact ⟨rfl, by simp [hdown]⟩
    · refine ⟨rfl, ?_⟩
      rcases hph with hi | hu <;> simp_all
  · intro cfg st prev y now hph
    rw [poseMachine, if_pos hph]
    simp only [gt_iff_lt]
    split_ifs with hdown
    · exact by simp [hdown]
    · rcases hph with hi | hu <;> simp_all

/-- Witness for C3 (amended) at concrete inputs: ball-only in `idle`
with peak `1/2` and smoothed position `7/10` transitions (the peak
stays `1/2 = min(1/2, 7/10)` and `1/2 + 8/100 < 7/10`); pose-only in
`idle` with previous position `1/2` and current `7/10` transitions
(`1/2 + 8/100 < 7/10`). -/
theorem down_transition_conventions_witness :
    ((ballMachine BALL_DRIBBLE_CONFIG ⟨.idle, 0, some (1/2), some (1/2), some (1/2)⟩
        (7/10) 0).1.highestBallY = some (min (1/2) (7/10)) ∧
     ((ballMachine BALL_DRIBBLE_CONFIG ⟨.idle, 0, some (1/2), some (1/2), some (1/2)⟩
        (7/10) 0).1.phase = BallPhase.ball_down ↔
       min (1/2 : ℚ) (7/10) + BALL_DRIBBLE_CONFIG.downThreshold < 7/10)) ∧
    ((poseMachine POSE_DRIBBLE_CONFIG ⟨.idle, 0, none, some (1/2), some (1/2)⟩
        (1/2) (7/10) 0).1.phase = PosePhase.hand_down ↔
      1/2 + POSE_DRIBBLE_CONFIG.downThreshold < (7/10 : ℚ)) :=
  ⟨down_transition_conventions.1 BALL_DRIBBLE_CONFIG
      ⟨.idle, 0, some (1/2), some (1/2), some (1/2)⟩ (7/10) 0 (1/2) (Or.inl rfl) rfl,
   down_transition_conventions.2 POSE_DRIBBLE_CONFIG
      ⟨.idle, 0, none, some (1/2), some (1/2)⟩ (1/2) (7/10) 0 (Or.inl rfl)⟩

theorem emitDetections_none_state (s : DetectionSettings) (st : SmootherState) :
    (emitDetections s st none).1
      = { st with framesSinceLastDetection := st.framesSinceLastDetection + 1 } := by
  unfold emitDetections
  rcases hl : st.lastDetection with _ | last
  · simp [hl]
  · by_cases hle : st.framesSinceLastDetection + 1 ≤ s.maxFramesToKeep <;> simp [hl, hle]

theorem absentIter_state (s : DetectionSettings) (d : JDetection) (c : ℚ) :
    ∀ (k j : ℕ), absentIter s ⟨some d, j, c⟩ k = ⟨some d, j + k, c⟩
  | 0, j => by simp [absentIter]
  | k + 1, j => by
    rw [absentIter, absentIter_state s d c k j, emitDetections_none_state]
    have hjk : j + k + 1 = j + (k + 1) := by omega
    simp [hjk]

theorem absentIter_emit (s : DetectionSettings) (d : JDetection) (k : ℕ) :
    (emitDetections s (absentIter s ⟨some d, 0, d.confidence⟩ k) none).2
      = if k + 1 ≤ s.maxFramesToKeep
        then [{ d with confidence := d.confidence * s.smoothingDecay ^ (k + 1) }]
        else [] := by
  rw [absentIter_state s d d.confidence k 0]
  unfold emitDetections
  by_cases hle : k + 1 ≤ s.maxFramesToKeep <;> simp [hle]

/-- C4: while a last-known detection exists, an absent frame within
`maxFramesToKeep` re-emits exactly the last observed detection with
only its confidence replaced by
`lastConfidence * smoothingDecay ^ framesSinceLastDetection` (label and
bounding box untouched, and the cached original confidence never
overwritten by a decayed value); once the frame count exceeds
`maxFramesToKeep` the emitted list is empty; and for
`smoothingDecay ∈ (0,1)` and positive original confidence the emitted
confidence is at most the original and strictly decreasing in the
number of absent frames. -/
theorem smoother_decay_spec :
    ∀ (s : DetectionSettings) (d : JDetection) (k : ℕ),
      absentIter s ⟨some d, 0, d.confidence⟩ k = ⟨some d, k, d.confidence⟩ ∧
      (k + 1 ≤ s.maxFramesToKeep →
        (emitDetections s (absentIter s ⟨some d, 0, d.confidence⟩ k) none).2
          = [{ d with confidence := d.confidence * s.smoothingDecay ^ (k + 1) }]) ∧
      (s.maxFramesToKeep < k + 1 →
        (emitDetections s (absentIter s ⟨some d, 0, d.confidence⟩ k) none).2 = []) ∧
      (0 < s.smoothingDecay → s.smoothingDecay < 1 → 0 < d.confidence →
        d.confidence * s.smoothingDecay ^ (k + 1) ≤ d.confidence ∧
        d.confidence * s.smoothingDecay ^ (k + 2)
          < d.confidence * s.smoothingDecay ^ (k + 1)) := by
  intro s d k
  refine ⟨by simpa using absentIter_state s d d.confidence k 0, ?_, ?_, ?_⟩
  · intro hk
    rw [absentIter_emit, if_pos hk]
  · intro hk
    rw [absentIter_emit, if_neg (by omega)]
  · intro h0 h1 hc
    constructor
    · calc d.confidence * s.smoothingDecay ^ (k + 1)
          ≤ d.confidence * 1 := by
            apply mul_le_mul_of_nonneg_left _ hc.le
            exact pow_le_one₀ h0.le h1.le
        _ = d.confidence := mul_one _
    · apply mul_lt_mul_of_pos_left _ hc
      rw [pow_succ]
      exact mul_lt_of_lt_one_right (pow_pos h0 _) h1

/-- The concrete detection used in the C4 witness. -/
def witnessDetection : JDetection :=
  { label := "basketball"
    confidence := 9/10
    boundingBox := ⟨some 0, some 0, some (1/10), some (1/10)⟩ }

/-- Witness for C4 at concrete inputs (`YOLO_CONFIG` defaults, an
observed confidence of `9/10`): after 2 absent frames the cells hold
the original detection and confidence; the third absent frame emits
the detection with confidence `9/10 * (8/10)^3`; after 10 absent
frames the eleventh absent frame emits the empty list; and the decayed
confidences are bounded by the original and strictly decreasing. -/
theorem smoother_decay_spec_witness :
    absentIter YOLO_CONFIG ⟨some witnessDetection, 0, witnessDetection.confidence⟩ 2
      = ⟨some witnessDetection, 2, witnessDetection.confidence⟩ ∧
    (emitDetections YOLO_CONFIG
        (absentIter YOLO_CONFIG ⟨some witnessDetection, 0, witnessDetection.confidence⟩ 2)
        none).2
      = [{ witnessDetection with
            confidence := witnessDetection.confidence * YOLO_CONFIG.smoothingDecay ^ 3 }] ∧
    (emitDetections YOLO_CONFIG
        (absentIter YOLO_CONFIG ⟨some witnessDetection, 0, witnessDetection.confidence⟩ 10)
        none).2 = [] ∧
    witnessDetection.confidence * YOLO_CONFIG.smoothingDecay ^ 3
      ≤ witnessDetection.confidence ∧
    witnessDetection.confidence * YOLO_CONFIG.smoothingDecay ^ 4
      < witnessDetection.confidence * YOLO_CONFIG.smoothingDecay ^ 3 := by
  have h2 := smoother_decay_spec YOLO_CONFIG witnessDetection 2
  have h10 := smoother_decay_spec YOLO_CONFIG witnessDetection 10
  have hd := h2.2.2.2 (by norm_num [YOLO_CONFIG]) (by norm_num [YOLO_CONFIG])
    (by norm_num [witnessDetection])
  exact ⟨h2.1, h2.2.1 (by norm_num [YOLO_CONFIG]), h10.2.2.1 (by norm_num [YOLO_CONFIG]),
    hd.1, hd.2⟩

theorem jsGtOpt_eq_true {v : Option ℚ} {b : ℚ} (h : jsGtOpt v b = true) :
    ∃ q, v = some q ∧ b < q := by
  rcases v with _ | q
  · simp [jsGtOpt] at h
  · exact ⟨q, rfl, by simpa [jsGtOpt] using h⟩

theorem jsGeOpt_eq_true {v : Option ℚ} {b : ℚ} (h : jsGeOpt v b = true) :
    ∃ q, v = some q ∧ b ≤ q := by
  rcases v with _ | q
  · simp [jsGeOpt] at h
  · exact ⟨q, rfl, by simpa [jsGeOpt] using h⟩

theorem jsGeOpt_of_le {q b : ℚ} (h : b ≤ q) : jsGeOpt (some q) b = true := by
  simpa [jsGeOpt] using h

theorem selectBestAux_mono (minConf : ℚ) (target : ℤ) :
    ∀ (cands : List RawCandidate) (score : ℚ) (best : Option RawCandidate),
      score ≤ (selectBestAux minConf target cands score best).1 ∧
      (∀ c ∈ cands, matchesTarget target c.cls = true →
        ∀ q, c.conf = some q → minConf ≤ q →
          q ≤ (selectBestAux minConf target cands score best).1)
  | [], score, best => ⟨le_refl _, by simp⟩
  | c :: cs, score, best => by
    by_cases hacc : (matchesTarget target c.cls && jsGtOpt c.conf score
        && jsGeOpt c.conf minConf) = true
    · simp only [selectBestAux, hacc, if_true]
      obtain ⟨⟨hm, hgt⟩, hge⟩ := by simpa [Bool.and_eq_true] using hacc
      obtain ⟨q, hq, hlt⟩ := jsGtOpt_eq_true hgt
      have hIH := selectBestAux_mono minConf target cs (c.conf.getD 0) (some c)
      have hq0 : c.conf.getD 0 = q := by rw [hq]; rfl
      refine ⟨le_of_lt (lt_of_lt_of_le hlt (hq0 ▸ hIH.1)), ?_⟩
      intro c' hc' hmc' q' hq' hge'
      rcases List.mem_cons.mp hc' with rfl | hmem
      · rw [hq] at hq'
        cases Option.some_inj.mp hq'
        exact hq0 ▸ hIH.1
      · exact hIH.2 c' hmem hmc' q' hq' hge'
    · simp only [selectBestAux, hacc, if_false, Bool.false_eq_true]
      have hIH := selectBestAux_mono minConf target cs score best
      refine ⟨hIH.1, ?_⟩
      intro c' hc' hmc' q' hq' hge'
      rcases List.mem_cons.mp hc' with rfl | hmem
      · have hnotgt : jsGtOpt c'.conf score = false := by
          rcases hb : jsGtOpt c'.conf score with _ | _
          · rfl
          · exfalso
            apply hacc
            rw [hmc', hb, hq', jsGeOpt_of_le hge']
            rfl
        rw [hq'] at hnotgt
        have : ¬ score < q' := by simpa [jsGtOpt] using hnotgt
        exact le_trans (not_lt.mp this) hIH.1
      · exact hIH.2 c' hmem hmc' q' hq' hge'

theorem selectBestAux_best_spec (minConf : ℚ) (target : ℤ) :
    ∀ (cands : List RawCandidate) (score : ℚ) (best : Option RawCandidate),
      (∀ b, best = some b →
          b.conf = some score ∧ matchesTarget target b.cls = true ∧ minConf ≤ score) →
      ∀ b, (selectBestAux minConf target cands score best).2 = some b →
        b.conf = some (selectBestAux minConf target cands score best).1 ∧
        matchesTarget target b.cls = true ∧
        minConf ≤ (selectBestAux minConf target cands score best).1 ∧
        (best = some b ∨ b ∈ cands)
  | [], score, best, hinv, b, hb => by
    simp only [selectBestAux] at hb ⊢
    obtain ⟨h1, h2, h3⟩ := hinv b hb
    exact ⟨h1, h2, h3, Or.inl hb⟩
  | c :: cs, score, best, hinv, b, hb => by
    by_cases hacc : (matchesTarget target c.cls && jsGtOpt c.conf score
        && jsGeOpt c.conf minConf) = true
    · simp only [selectBestAux, hacc, if_true] at hb ⊢
      obtain ⟨⟨hm, hgt⟩, hge⟩ := by simpa [Bool.and_eq_true] using hacc
      obtain ⟨q, hq, _⟩ := jsGtOpt_eq_true hgt
      obtain ⟨q2, hq2, hgeq⟩ := jsGeOpt_eq_true hge
      have hq0 : c.conf.getD 0 = q := by rw [hq]; rfl
      have hinv2 : ∀ b', some c = some b' →
          b'.conf = some (c.conf.getD 0) ∧ matchesTarget target b'.cls = true ∧
            minConf ≤ c.conf.getD 0 := by
        intro b' hb'
        cases Option.some_inj.mp hb'
        refine ⟨by rw [hq]; rfl, hm, ?_⟩
        rw [hq] at hq2
        cases Option.some_inj.mp hq2
        exact hq0 ▸ hgeq
      have := selectBestAux_best_spec minConf target cs (c.conf.getD 0) (some c) hinv2 b hb
      refine ⟨this.1, this.2.1, this.2.2.1, ?_⟩
      rcases this.2.2.2 with h | h
      · exact Or.inr (List.mem_cons.mpr (Or.inl (Option.some_inj.mp h).symm))
      · exact Or.inr (List.mem_cons_of_mem _ h)
    · simp only [selectBestAux, hacc, if_false, Bool.false_eq_true] at hb ⊢
      have := selectBestAux_best_spec minConf target cs score best hinv b hb
      exact ⟨this.1, this.2.1, this.2.2.1, this.2.2.2.imp id (List.mem_cons_of_mem _)⟩

theorem selectBest_spec (minConf : ℚ) (target : ℤ) (cands : List RawCandidate)
    (b : RawCandidate) (hb : selectBest minConf target cands = some b) :
    b ∈ cands ∧ matchesTarget target b.cls = true ∧
    ∃ q, b.conf = some q ∧ minConf ≤ q ∧
      ∀ c ∈ cands, matchesTarget target c.cls = true →
        ∀ q', c.conf = some q' → minConf ≤ q' → q' ≤ q := by
  have hspec := selectBestAux_best_spec minConf target cands 0 none (by simp) b hb
  have hmono := selectBestAux_mono minConf target cands 0 none
  obtain ⟨hconf, hm, hge, hmem⟩ := hspec
  rcases hmem with h | h
  · simp at h
  · exact ⟨h, hm, (selectBestAux minConf target cands 0 none).1, hconf, hge,
      fun c hc hmc q' hq' hge' => hmono.2 c hc hmc q' hq' hge'⟩

theorem emitDetections_length (s : DetectionSettings) (st : SmootherState)
    (best : Option RawCandidate) : (emitDetections s st best).2.length ≤ 1 := by
  rcases best with _ | c
  · unfold emitDetections
    rcases hl : st.lastDetection with _ | last
    · simp [hl]
    · by_cases hle : st.framesSinceLastDetection + 1 ≤ s.maxFramesToKeep <;> simp [hl, hle]
  · simp [emitDetections]

/-- C5: every frame emits at most one `DetectedObject`; and whenever
the selection loop picks a candidate (in either the YOLO or the
EfficientDet branch, both of which feed `selectBest` with the frame's
candidate records), the picked candidate matches the target-class
filter (any class when `targetClass = -1`), its confidence is an
actual number at least `minConfidence`, and its confidence is maximal
among all candidates of the frame that match the filter and meet the
threshold. -/
theorem normalizer_selection_spec :
    (∀ (mc : ModelConfig) (s : DetectionSettings) (st : SmootherState) (frameStart : ℤ)
        (outputs : List (List (Option ℚ))) (l : List JDetection),
       (processFrame mc s st frameStart outputs).2 = some l → l.length ≤ 1) ∧
    (∀ (minConf : ℚ) (target : ℤ) (cands : List RawCandidate) (b : RawCandidate),
       selectBest minConf target cands = some b →
         b ∈ cands ∧ matchesTarget target b.cls = true ∧
         ∃ q, b.conf = some q ∧ minConf ≤ q ∧
           ∀ c ∈ cands, matchesTarget target c.cls = true →
             ∀ q', c.conf = some q' → minConf ≤ q' → q' ≤ q) := by
  constructor
  · intro mc s st frameStart outputs l hl
    unfold processFrame at hl
    by_cases hlen : outputs.length ≥ 1
    · rw [if_pos hlen] at hl
      rcases hfmt : mc.outputFormat with _ | _ <;> rw [hfmt] at hl
      · simp only at hl
        by_cases hdrop : frameStart % 1000 < 50 ∧
            (outputs.getD 0 []).length ≤ 2 * mc.valuesPerDetection + 4
        · rw [if_pos hdrop] at hl
          simp at hl
        · rw [if_neg hdrop] at hl
          simp only at hl
          cases Option.some_inj.mp hl
          exact emitDetections_length _ _ _
      · simp only at hl
        by_cases hdrop : frameStart % 1000 < 50 ∧
            (outputs.length < 3 ∨ (outputs.getD 2 []).length < 3)
        · rw [if_pos hdrop] at hl
          simp at hl
        · rw [if_neg hdrop] at hl
          by_cases hthrow : outputs.length < 3 ∧ 0 < mc.numDetections
          · rw [if_pos hthrow] at hl
            simp at hl
          · rw [if_neg hthrow] at hl
            simp only at hl
            cases Option.some_inj.mp hl
            exact emitDetections_length _ _ _
    · rw [if_neg hlen] at hl
      simp at hl
  · intro minConf target cands b hb
    exact selectBest_spec minConf target cands b hb

/-- A candidate of class 0 with confidence `1/2`, for the C5 witness. -/
def witnessCandidateA : RawCandidate := ⟨some (1/2), some 0, none, none, none, none⟩

/-- A candidate of class 5 with confidence `3/4`, for the C5 witness. -/
def witnessCandidateB : RawCandidate := ⟨some (3/4), some 5, none, none, none, none⟩

/-- Witness for C5: with `targetClass = -1` and two candidates of
different classes and confidences `1/2` and `3/4`, the selection picks
the class-5 candidate with confidence `3/4`, which is maximal; and a
frame with an empty raw buffer emits a list of length `0 ≤ 1`. -/
theorem normalizer_selection_spec_witness :
    (witnessCandidateB ∈ [witnessCandidateA, witnessCandidateB] ∧
      matchesTarget (-1) witnessCandidateB.cls = true ∧
      ∃ q, witnessCandidateB.conf = some q ∧ (1:ℚ)/10 ≤ q ∧
        ∀ c ∈ [witnessCandidateA, witnessCandidateB], matchesTarget (-1) c.cls = true →
          ∀ q', c.conf = some q' → (1:ℚ)/10 ≤ q' → q' ≤ q) ∧
    ([] : List JDetection).length ≤ 1 := by
  have h2 := normalizer_selection_spec.2 (1/10) (-1)
    [witnessCandidateA, witnessCandidateB] witnessCandidateB
    (by norm_num +decide [selectBest, selectBestAux, matchesTarget, jsGtOpt, jsGeOpt,
      witnessCandidateA, witnessCandidateB])
  have h1 := normalizer_selection_spec.1 ⟨0, 6, .yolo⟩ YOLO_CONFIG initSmoother 100 [[]] []
    (by norm_num +decide [processFrame, yoloCandidates, selectBest, selectBestAux,
      emitDetections, initSmoother])
  exact ⟨h2, h1⟩

/-- A concrete ball detection whose bounding-box center Y is `3/10`. -/
def stoppedFrameBall : DetectedObject :=
  { label := "sports ball", confidence := 1, boundingBox := ⟨1/4, 1/4, 1/10, 1/10⟩ }

/-- Counterexample to C6: in the combined pose+object hook
(`useDribbleDetection.ts`), a detection callback delivered after
`stopTracking()` still mutates pipeline state: the smoothed ball
position changes from `none` to `some (3/10)` (and the ball-position
ref is likewise updated) although tracking is stopped — the
`isTracking` flag only gates `processDribble`, not these mutations. -/
theorem stopTracking_mutation_counterexample :
    (combinedStopTracking (combinedStartTracking mkCombinedHook)).isTracking = false ∧
    (combinedStopTracking (combinedStartTracking mkCombinedHook)).smoothedBallY = none ∧
    (combinedOnObjectsUpdate DRIBBLE_DETECTION_CONFIG
        (combinedStopTracking (combinedStartTracking mkCombinedHook)) 5
        [stoppedFrameBall]).smoothedBallY = some (3/10) ∧
    (combinedOnObjectsUpdate DRIBBLE_DETECTION_CONFIG
        (combinedStopTracking (combinedStartTracking mkCombinedHook)) 5
        [stoppedFrameBall]).ballPositionRef = some ⟨3/10, 3/10, 5⟩ := by
  norm_num +decide [combinedOnObjectsUpdate, combinedStopTracking, combinedStartTracking,
    mkCombinedHook, initCombinedState, findBallCombined, stoppedFrameBall,
    DRIBBLE_DETECTION_CONFIG]

/-- C6 as amended: in the ball-only hook the tracking flag is checked
before any state mutation, so a detection callback after
`stopTracking()` changes nothing; in the pose-only hook the only
mutation after `stopTracking()` is the raw `currentPose` passthrough;
in the combined hook the phase state, timestamps and count are
unchanged after `stopTracking()` (though, per the counterexample, the
ball-position ref and smoothed ball position are still updated); and
in all three hooks `stopTracking()` itself only clears the tracking
flag, preserving the repetition count (pause semantics, distinct from
`reset()`). -/
theorem stopTracking_gating_spec :
    (∀ (cfg : BallConfig) (h : BallHook) (now : ℤ) (objects : List DetectedObject),
       h.isTracking = false → ballStepEv cfg h now objects = (h, false)) ∧
    (∀ (cfg : PoseConfig) (h : PoseHook) (now : ℤ) (pose : Option PoseLandmarks),
       h.isTracking = false →
         poseStepEv cfg h now pose = ({ h with currentPose := pose }, false)) ∧
    (∀ (cfg : CombinedConfig) (h : CombinedHook) (now : ℤ) (objects : List DetectedObject),
       h.isTracking = false →
         (combinedOnObjectsUpdate cfg h now objects).dribbleCount = h.dribbleCount ∧
         (combinedOnObjectsUpdate cfg h now objects).state = h.state) ∧
    (∀ h : BallHook, ballStopTracking h = { h with isTracking := false }) ∧
    (∀ h : PoseHook, poseStopTracking h = { h with isTracking := false }) ∧
    (∀ h : CombinedHook, combinedStopTracking h = { h with isTracking := false }) :=
  ⟨ballStepEv_not_tracking, poseStepEv_not_tracking, combinedStep_not_tracking,
    fun _ => rfl, fun _ => rfl, fun _ => rfl⟩

/-- Witness for C6 (amended) at concrete stopped hooks: the ball-only
step is a no-op, the pose-only step only stores the pose, and the
combined step preserves count and machine state. -/
theorem stopTracking_gating_spec_witness :
    ballStepEv BALL_DRIBBLE_CONFIG (ballStopTracking (ballStartTracking
        (mkBallHook BALL_DRIBBLE_CONFIG))) 0 [stoppedFrameBall]
      = (ballStopTracking (ballStartTracking (mkBallHook BALL_DRIBBLE_CONFIG)), false) ∧
    poseStepEv POSE_DRIBBLE_CONFIG (poseStopTracking (poseStartTracking
        (mkPoseHook POSE_DRIBBLE_CONFIG))) 0 none
      = ({ poseStopTracking (poseStartTracking (mkPoseHook POSE_DRIBBLE_CONFIG)) with
            currentPose := none }, false) ∧
    (combinedOnObjectsUpdate DRIBBLE_DETECTION_CONFIG
        (combinedStopTracking (combinedStartTracking mkCombinedHook)) 5
        [stoppedFrameBall]).dribbleCount
      = (combinedStopTracking (combinedStartTracking mkCombinedHook)).dribbleCount ∧
    (combinedOnObjectsUpdate DRIBBLE_DETECTION_CONFIG
        (combinedStopTracking (combinedStartTracking mkCombinedHook)) 5
        [stoppedFrameBall]).state
      = (combinedStopTracking (combinedStartTracking mkCombinedHook)).state := by
  have h3 := stopTracking_gating_spec.2.2.1 DRIBBLE_DETECTION_CONFIG
    (combinedStopTracking (combinedStartTracking mkCombinedHook)) 5 [stoppedFrameBall] rfl
  exact ⟨stopTracking_gating_spec.1 BALL_DRIBBLE_CONFIG _ 0 [stoppedFrameBall] rfl,
    stopTracking_gating_spec.2.1 POSE_DRIBBLE_CONFIG _ 0 none rfl, h3.1, h3.2⟩

theorem poseApplyMachine_smoothed (cfg : PoseConfig) (h : PoseHook) (w : ℚ) (now : ℤ) :
    (poseApplyMachine cfg h w now).1.smoothedLeftWristY = h.smoothedLeftWristY := by
  rcases hp : h.state.previousWristY with _ | prev <;> simp [poseApplyMachine, hp]

/-- C7: the exponential-smoothing update rule.  In the ball-only hook,
with tracking live and a ball in the frame, the new smoothed position
is `smoothedY * α + rawY * (1 - α)` with `rawY` the bounding-box
vertical center `y + height/2`, and on the first observation (smoothed
cell still empty) the raw value is stored directly with no blending.
In the pose-only hook the same rule applies with `rawY` the wrist
keypoint's `y` (stated for a confidently visible left wrist). -/
theorem smoothing_update_rule :
    (∀ (cfg : BallConfig) (h : BallHook) (now : ℤ) (objects : List DetectedObject)
        (ball : DetectedObject),
       h.isTracking = true → findBall objects = some ball →
       (∀ s, h.smoothedBallY = some s →
          (ballStepEv cfg h now objects).1.smoothedBallY
            = some (s * cfg.smoothing
                + (ball.boundingBox.y + ball.boundingBox.height / 2) * (1 - cfg.smoothing))) ∧
       (h.smoothedBallY = none →
          (ballStepEv cfg h now objects).1.smoothedBallY
            = some (ball.boundingBox.y + ball.boundingBox.height / 2))) ∧
    (∀ (cfg : PoseConfig) (h : PoseHook) (now : ℤ) (p : PoseLandmarks),
       h.isTracking = true →
       cfg.minWristConfidence ≤ p.leftWrist.visibility.getD 0 →
       (∀ s, h.smoothedLeftWristY = some s →
          (poseStepEv cfg h now (some p)).1.smoothedLeftWristY
            = some (s * cfg.smoothing + p.leftWrist.y * (1 - cfg.smoothing))) ∧
       (h.smoothedLeftWristY = none →
          (poseStepEv cfg h now (some p)).1.smoothedLeftWristY = some p.leftWrist.y)) := by
  constructor
  · intro cfg h now objects ball ht hb
    constructor
    · intro s hs
      rcases hp : h.state.previousBallY with _ | prev <;>
        simp [ballStepEv, ht, hb, hs, hp]
    · intro hs
      rcases hp : h.state.previousBallY with _ | prev <;>
        simp [ballStepEv, ht, hb, hs, hp]
  · intro cfg h now p ht hL
    have hcond : ¬ (¬ cfg.minWristConfidence ≤ p.leftWrist.visibility.getD 0
        ∧ ¬ cfg.minWristConfidence ≤ p.rightWrist.visibility.getD 0) :=
      fun hc => hc.1 hL
    constructor
    · intro s hs
      simp [poseStepEv, ht, hcond, hs, hL, poseApplyMachine_smoothed,
        apply_ite PoseHook.smoothedLeftWristY]
    · intro hs
      simp [poseStepEv, ht, hcond, hs, hL, poseApplyMachine_smoothed,
        apply_ite PoseHook.smoothedLeftWristY]

/-- The concrete ball frame of the C7 witness (center Y `3/10`). -/
def witnessBallFrame : DetectedObject :=
  { label := "basketball", confidence := 1, boundingBox := ⟨1/4, 1/4, 1/10, 1/10⟩ }

/-- The concrete pose of the C7 witness (left wrist fully visible at
Y `2/5`). -/
def witnessPose : PoseLandmarks :=
  { leftWrist := { x := 1/2, y := 2/5, visibility := some 1 }
    rightWrist := { x := 1/2, y := 0, visibility := some 0 } }

/-- A ball-only hook that is live with smoothed position `1/2`. -/
def witnessBallHook : BallHook :=
  { dribbleCount := 0
    isTracking := true
    state := { phase := .idle, lastDribbleTime := 0, previousBallY := some (1/2),
               highestBallY := some (1/2), lowestBallY := some (1/2) }
    smoothedBallY := some (1/2) }

/-- A pose-only hook that is live with smoothed left wrist `1/2`. -/
def witnessPoseHook : PoseHook :=
  { dribbleCount := 0
    isTracking := true
    activeSide := none
    currentPose := none
    state := { phase := .idle, lastDribbleTime := 0, activeSide := none,
               previousWristY := some (1/2), lowestWristY := some (1/2) }
    smoothedLeftWristY := some (1/2)
    smoothedRightWristY := none }

/-- Witness for C7 at concrete inputs: blending on an existing smoothed
value, and direct storage on the first observation, in both hooks. -/
theorem smoothing_update_rule_witness :
    (ballStepEv BALL_DRIBBLE_CONFIG witnessBallHook 0 [witnessBallFrame]).1.smoothedBallY
      = some (1/2 * BALL_DRIBBLE_CONFIG.smoothing
          + (witnessBallFrame.boundingBox.y + witnessBallFrame.boundingBox.height / 2)
            * (1 - BALL_DRIBBLE_CONFIG.smoothing)) ∧
    (ballStepEv BALL_DRIBBLE_CONFIG (ballStartTracking witnessBallHook) 0
        [witnessBallFrame]).1.smoothedBallY
      = some (witnessBallFrame.boundingBox.y + witnessBallFrame.boundingBox.height / 2) ∧
    (poseStepEv POSE_DRIBBLE_CONFIG witnessPoseHook 0 (some witnessPose)).1.smoothedLeftWristY
      = some (1/2 * POSE_DRIBBLE_CONFIG.smoothing
          + witnessPose.leftWrist.y * (1 - POSE_DRIBBLE_CONFIG.smoothing)) ∧
    (poseStepEv POSE_DRIBBLE_CONFIG (poseStartTracking witnessPoseHook) 0
        (some witnessPose)).1.smoothedLeftWristY
      = some witnessPose.leftWrist.y := by
  have hvis : POSE_DRIBBLE_CONFIG.minWristConfidence
      ≤ witnessPose.leftWrist.visibility.getD 0 := by
    norm_num [POSE_DRIBBLE_CONFIG, witnessPose]
  have hfind : findBall [witnessBallFrame] = some witnessBallFrame := by
    norm_num +decide [findBall, witnessBallFrame]
  exact ⟨(smoothing_update_rule.1 BALL_DRIBBLE_CONFIG witnessBallHook 0 [witnessBallFrame]
      witnessBallFrame (by rfl) hfind).1 (1/2) (by rfl),
    (smoothing_update_rule.1 BALL_DRIBBLE_CONFIG (ballStartTracking witnessBallHook) 0
      [witnessBallFrame] witnessBallFrame (by rfl) hfind).2 (by rfl),
    (smoothing_update_rule.2 POSE_DRIBBLE_CONFIG witnessPoseHook 0 witnessPose (by rfl)
      hvis).1 (1/2) (by rfl),
    (smoothing_update_rule.2 POSE_DRIBBLE_CONFIG (poseStartTracking witnessPoseHook) 0
      witnessPose (by rfl) hvis).2 (by rfl)⟩

theorem selectBestAux_all_none (minConf : ℚ) (target : ℤ) :
    ∀ (cands : List RawCandidate) (score : ℚ) (best : Option RawCandidate),
      (∀ c ∈ cands, c.conf = none) →
      selectBestAux minConf target cands score best = (score, best)
  | [], _, _, _ => rfl
  | c :: cs, score, best, hall => by
    have hc : c.conf = none := hall c (List.mem_cons_self c cs)
    have hrej : (matchesTarget target c.cls && jsGtOpt c.conf score
        && jsGeOpt c.conf minConf) = false := by
      simp [hc, jsGtOpt]
    simp only [selectBestAux, hrej, Bool.false_eq_true, if_false]
    exact selectBestAux_all_none minConf target cs score best
      (fun c' h => hall c' (List.mem_cons_of_mem _ h))

/-- The raw outputs of the C8 counterexample: EfficientDet-format
tensors all of the wrong length for the declared
`efficientdet_lite0` shape (boxes of length 4 instead of 100, classes
and scores of length 1 instead of 25), whose only populated slot is a
valid class-32 record of confidence `9/10`. -/
def malformedOutputs : List (List (Option ℚ)) :=
  [[some (1/10), some (2/10), some (3/10), some (4/10)], [some 32], [some (9/10)]]

/-- Counterexample to C8: a raw output whose buffers have the wrong
length for the declared format does NOT always yield zero detections —
on a non-logging frame (`frameStart = 100`, `100 % 1000 ≥ 50`) the
valid prefix still produces one (slot 0; the 24 out-of-range slots are
skipped because their reads are `undefined`), while on a logging frame
(`frameStart = 0`) the very same buffers make the diagnostic block
throw (`scores` has fewer than 3 entries) and the frame is dropped
instead of being "treated as zero detections".  Declared
`efficientdet_lite0` shape, `YOLO_CONFIG` settings. -/
theorem malformed_buffer_counterexample :
    ((processFrame efficientdet_lite0 YOLO_CONFIG initSmoother 100 malformedOutputs).2.map
      List.length) = some 1 ∧
    processFrame efficientdet_lite0 YOLO_CONFIG initSmoother 0 malformedOutputs
      = (initSmoother, none) := by
  constructor
  · norm_num +decide [processFrame, effCandidates, selectBest, selectBestAux, emitDetections,
      initSmoother, efficientdet_lite0, YOLO_CONFIG, malformedOutputs, matchesTarget,
      jsGtOpt, jsGeOpt, jsRead, clampBox, buildDetection, jsSub, List.range_succ,
      round_eq]
  · norm_num +decide [processFrame, efficientdet_lite0, malformedOutputs]

/-- C8 as amended: whether a malformed buffer is dropped whole or
skipped slot by slot depends on the frame's timestamp.  On logging
frames (`frameStart % 1000 < 50`) the diagnostic block's reads of
slots 0–2 throw on a buffer too short for them
(`output.length ≤ 2 * valuesPerDetection + 4` in the YOLO branch), and
the frame is dropped inside the catch with no emission and the cells
untouched.  On every other frame — and on logging frames whose buffer
covers those reads — a slot whose confidence read is NaN or
out-of-range is simply never selected, so a buffer all of whose slots
are malformed produces no fresh detection (an empty emission when the
smoother cache is empty), while a wrong-length buffer with a valid
prefix can still yield a detection from that prefix (see the
counterexample).  EfficientDet outputs with missing tensors always
drop the frame with the cells untouched (the selection loop's
`undefined[i]`, or on logging frames the block's `.length` reads).  No
error ever escapes the frame processor's catch. -/
theorem malformed_slots_spec :
    (∀ (minConf : ℚ) (target : ℤ) (cands : List RawCandidate),
       (∀ c ∈ cands, c.conf = none) → selectBest minConf target cands = none) ∧
    (∀ (numDet vals : ℕ) (output : List (Option ℚ)) (s : DetectionSettings)
        (st : SmootherState) (frameStart : ℤ),
       (∀ i, i < numDet → jsRead output (i * vals + 4) = none) →
       st.lastDetection = none →
       (¬ frameStart % 1000 < 50 ∨ 2 * vals + 4 < output.length) →
       (processFrame ⟨numDet, vals, .yolo⟩ s st frameStart [output]).2 = some []) ∧
    (∀ (numDet vals : ℕ) (output : List (Option ℚ)) (s : DetectionSettings)
        (st : SmootherState) (frameStart : ℤ),
       frameStart % 1000 < 50 → output.length ≤ 2 * vals + 4 →
       processFrame ⟨numDet, vals, .yolo⟩ s st frameStart [output] = (st, none)) ∧
    (∀ (mc : ModelConfig) (s : DetectionSettings) (st : SmootherState) (frameStart : ℤ)
        (outputs : List (List (Option ℚ))),
       mc.outputFormat = .efficientdet → outputs.length < 3 → 0 < mc.numDetections →
       processFrame mc s st frameStart outputs = (st, none)) := by
  refine ⟨?_, ?_, ?_, ?_⟩
  · intro minConf target cands hall
    unfold selectBest
    rw [selectBestAux_all_none minConf target cands 0 none hall]
  · intro numDet vals output s st frameStart hall hld hnodrop
    have hnone : selectBest s.minConfidence s.targetClass
        (yoloCandidates numDet vals output) = none := by
      unfold selectBest
      rw [selectBestAux_all_none]
      intro c hc
      obtain ⟨i, hir, hfi⟩ := List.mem_map.mp hc
      rw [← hfi]
      exact hall i (List.mem_range.mp hir)
    unfold processFrame
    rw [if_pos (by simp)]
    simp only
    rw [if_neg (by
      rcases hnodrop with h | h
      · exact fun hc => h hc.1
      · exact fun hc => absurd hc.2 (by simpa using h))]
    simp [hnone, emitDetections, hld]
  · intro numDet vals output s st frameStart hlog hshort
    unfold processFrame
    rw [if_pos (by simp)]
    simp only
    rw [if_pos ⟨hlog, by simpa using hshort⟩]
  · intro mc s st frameStart outputs hfmt hlen hdet
    unfold processFrame
    by_cases hge : outputs.length ≥ 1
    · rw [if_pos hge, hfmt]
      simp only
      by_cases hlog : frameStart % 1000 < 50
      · rw [if_pos ⟨hlog, Or.inl hlen⟩]
      · rw [if_neg (fun hc => hlog hc.1), if_pos ⟨hlen, hdet⟩]
    · rw [if_neg hge]

/-- Witness for C8 (amended) at concrete inputs: an empty YOLO buffer
for the declared `yolo26n_float16` shape emits the empty list from an
empty cache on a non-logging frame (`frameStart = 100`); the same
buffer on a logging frame (`frameStart = 0`) is dropped whole with the
cells untouched; and EfficientDet outputs with only two tensors drop
the frame at any timestamp. -/
theorem malformed_slots_spec_witness :
    (processFrame ⟨300, 6, .yolo⟩ YOLO_CONFIG initSmoother 100 [[]]).2 = some [] ∧
    processFrame ⟨300, 6, .yolo⟩ YOLO_CONFIG initSmoother 0 [[]] = (initSmoother, none) ∧
    processFrame efficientdet_lite0 YOLO_CONFIG initSmoother 777 [[], []]
      = (initSmoother, none) :=
  ⟨malformed_slots_spec.2.1 300 6 [] YOLO_CONFIG initSmoother 100 (fun _ _ => rfl) rfl
      (Or.inl (by norm_num)),
   malformed_slots_spec.2.2.1 300 6 [] YOLO_CONFIG initSmoother 0 (by norm_num) (by simp),
   malformed_slots_spec.2.2.2 efficientdet_lite0 YOLO_CONFIG initSmoother 777 [[], []]
     rfl (by norm_num) (by norm_num [efficientdet_lite0])⟩

/-- A configuration violating the C9 constraint (`downThreshold ≤ 0`),
with no smoothing and a zero debounce interval. -/
def invalidBallConfig : BallConfig :=
  { downThreshold := -1, upThreshold := 1/100, minDribbleInterval := 0, smoothing := 0 }

/-- A ball detection whose bounding-box center Y is exactly `y`. -/
def ballDetectionAt (y : ℚ) : DetectedObject :=
  { label := "basketball", confidence := 1, boundingBox := ⟨0, y, 0, 0⟩ }

/-- Three frames: the ball sits at `1/2`, stays, then rises to `3/10`. -/
def invalidConfigFrames : List BallFrame :=
  [(0, [ballDetectionAt (1/2)]), (1, [ballDetectionAt (1/2)]), (2, [ballDetectionAt (3/10)])]

/-- Counterexample to C9: construction with `downThreshold = -1 ≤ 0`
does NOT fail — the hook performs no validation, builds exactly the
same initial pipeline as with the shipped configuration, and the
pipeline then silently runs with the nonsensical threshold, here even
counting a repetition over three frames. -/
theorem config_validation_counterexample :
    invalidBallConfig.downThreshold ≤ 0 ∧
    mkBallHook invalidBallConfig = mkBallHook BALL_DRIBBLE_CONFIG ∧
    (ballRunEv invalidBallConfig (ballStartTracking (mkBallHook invalidBallConfig))
        invalidConfigFrames).1.dribbleCount = 1 := by
  refine ⟨by norm_num [invalidBallConfig], rfl, ?_⟩
  norm_num +decide [ballRunEv, ballStepEv, ballMachine, ballStartTracking, mkBallHook,
    initBallState, findBall, invalidBallConfig, invalidConfigFrames, ballDetectionAt]

/-- C9 as amended: no construction-time validation exists.  Hook
construction ignores the configuration entirely (the thresholds are
compile-time module constants), so a pipeline is produced — and runs —
for any configuration whatsoever; the shipped configurations do
satisfy `downThreshold > 0` and `minEventInterval ≥ 0`. -/
theorem no_config_validation :
    (∀ cfg : BallConfig, mkBallHook cfg = mkBallHook BALL_DRIBBLE_CONFIG) ∧
    (∀ cfg : PoseConfig, mkPoseHook cfg = mkPoseHook POSE_DRIBBLE_CONFIG) ∧
    0 < BALL_DRIBBLE_CONFIG.downThreshold ∧ 0 ≤ BALL_DRIBBLE_CONFIG.minDribbleInterval ∧
    0 < POSE_DRIBBLE_CONFIG.downThreshold ∧ 0 ≤ POSE_DRIBBLE_CONFIG.minDribbleInterval ∧
    0 < DRIBBLE_DETECTION_CONFIG.downThreshold ∧
    0 ≤ DRIBBLE_DETECTION_CONFIG.minDribbleInterval := by
  refine ⟨fun _ => rfl, fun _ => rfl, ?_, ?_, ?_, ?_, ?_, ?_⟩ <;>
    norm_num [BALL_DRIBBLE_CONFIG, POSE_DRIBBLE_CONFIG, DRIBBLE_DETECTION_CONFIG]

theorem ballStepEv_no_ball (cfg : BallConfig) (h : BallHook) (now : ℤ)
    (objects : List DetectedObject) (ht : h.isTracking = true)
    (hb : findBall objects = none) : ballStepEv cfg h now objects = (h, false) := by
  simp [ballStepEv, ht, hb]

theorem ballRunEv_all_no_ball (cfg : BallConfig) :
    ∀ (frames : List BallFrame) (h : BallHook), h.isTracking = true →
      (∀ f ∈ frames, findBall f.2 = none) → ballRunEv cfg h frames = (h, [])
  | [], _, _, _ => rfl
  | (now, objs) :: rest, h, ht, hall => by
    have h0 : findBall objs = none := hall _ (List.mem_cons_self _ _)
    have hrest := ballRunEv_all_no_ball cfg rest h ht
      (fun f hf => hall f (List.mem_cons_of_mem _ hf))
    simp only [ballRunEv, ballStepEv_no_ball cfg h now objs ht h0, hrest]
    simp

theorem ballStepEv_init (cfg : BallConfig) (h : BallHook) (now : ℤ)
    (objects : List DetectedObject) (ball : DetectedObject) (ht : h.isTracking = true)
    (hp : h.state.previousBallY = none) (hb : findBall objects = some ball) :
    ∃ y, ballStepEv cfg h now objects
      = (⟨h.dribbleCount, h.isTracking,
          ⟨h.state.phase, h.state.lastDribbleTime, some y, some y, some y⟩, some y⟩, false) := by
  rcases hs : h.smoothedBallY with _ | s
  · exact ⟨ball.boundingBox.y + ball.boundingBox.height / 2,
      by simp [ballStepEv, ht, hb, hp, hs]⟩
  · exact ⟨s * cfg.smoothing
        + (ball.boundingBox.y + ball.boundingBox.height / 2) * (1 - cfg.smoothing),
      by simp [ballStepEv, ht, hb, hp, hs]⟩

/-- C10: in the ball-only pipeline the first ball-containing frame
after `startTracking()` or `reset()` only initializes the tracking
values (previous, highest and lowest Y are all set to the just-computed
smoothed Y, which is also stored) and returns — phase, count and last
event time are untouched and no event fires; consequently any run
containing at most one ball-containing frame, started from a state
with `previousBallY` unset, leaves the count and the phase unchanged
and emits no event (and both `startTracking()` and `reset()` put the
machine in exactly such a state: `initBallState`, whose phase is
`idle` and whose `previousBallY` is unset, with the count 0 after
`reset`). -/
theorem first_ball_frame_init_spec :
    (∀ (cfg : BallConfig) (h : BallHook) (now : ℤ) (objects : List DetectedObject)
        (ball : DetectedObject),
       h.isTracking = true → h.state.previousBallY = none → findBall objects = some ball →
       (ballStepEv cfg h now objects).2 = false ∧
       (ballStepEv cfg h now objects).1.dribbleCount = h.dribbleCount ∧
       (ballStepEv cfg h now objects).1.state.phase = h.state.phase ∧
       (ballStepEv cfg h now objects).1.state.lastDribbleTime = h.state.lastDribbleTime ∧
       (∃ y, (ballStepEv cfg h now objects).1.smoothedBallY = some y ∧
         (ballStepEv cfg h now objects).1.state.previousBallY = some y ∧
         (ballStepEv cfg h now objects).1.state.highestBallY = some y ∧
         (ballStepEv cfg h now objects).1.state.lowestBallY = some y)) ∧
    (∀ (cfg : BallConfig) (h : BallHook) (frames : List BallFrame),
       h.isTracking = true → h.state.previousBallY = none →
       (frames.countP fun f => (findBall f.2).isSome) ≤ 1 →
       (ballRunEv cfg h frames).1.dribbleCount = h.dribbleCount ∧
       (ballRunEv cfg h frames).1.state.phase = h.state.phase ∧
       (ballRunEv cfg h frames).2 = []) ∧
    (∀ h : BallHook, (ballStartTracking h).state = initBallState ∧
       (ballReset h).state = initBallState ∧ (ballReset h).dribbleCount = 0) ∧
    initBallState.previousBallY = none ∧ initBallState.phase = .idle := by
  refine ⟨?_, ?_, fun h => ⟨rfl, rfl, rfl⟩, rfl, rfl⟩
  · intro cfg h now objects ball ht hp hb
    obtain ⟨y, hy⟩ := ballStepEv_init cfg h now objects ball ht hp hb
    rw [hy]
    exact ⟨rfl, rfl, rfl, rfl, y, rfl, rfl, rfl, rfl⟩
  · intro cfg h frames ht hp hcount
    induction frames generalizing h with
    | nil => exact ⟨rfl, rfl, rfl⟩
    | cons f rest ih =>
      obtain ⟨now, objs⟩ := f
      rcases hb : findBall objs with _ | ball
      · have hstep := ballStepEv_no_ball cfg h now objs ht hb
        have hcount' : (rest.countP fun f => (findBall f.2).isSome) ≤ 1 := by
          rw [List.countP_cons] at hcount
          omega
        have hres := ih h ht hp hcount'
        simp only [ballRunEv, hstep]
        simpa using hres
      · obtain ⟨y, hy⟩ := ballStepEv_init cfg h now objs ball ht hp hb
        have hrest0 : (rest.countP fun f => (findBall f.2).isSome) = 0 := by
          rw [List.countP_cons] at hcount
          have hone : (if (findBall (now, objs).2).isSome = true then 1 else 0) = 1 := by
            simp [hb]
          rw [hone] at hcount
          omega
        have hallnone : ∀ f ∈ rest, findBall f.2 = none := by
          intro f hf
          have hz := List.countP_eq_zero.mp hrest0 f hf
          simpa using hz
        have hfin := ballRunEv_all_no_ball cfg rest
          ⟨h.dribbleCount, h.isTracking,
            ⟨h.state.phase, h.state.lastDribbleTime, some y, some y, some y⟩, some y⟩
          ht hallnone
        simp only [ballRunEv, hy, hfin]
        simp

/-- Witness for C10 at concrete inputs: from the freshly started
ball-only hook, a first ball frame at `1/2` fires no event and leaves
the count at 0 and the phase `idle`; and a run consisting of an empty
frame followed by that single ball frame also ends with count 0, phase
`idle` and no emitted events. -/
theorem first_ball_frame_init_spec_witness :
    (ballStepEv BALL_DRIBBLE_CONFIG (ballStartTracking (mkBallHook BALL_DRIBBLE_CONFIG)) 0
        [ballDetectionAt (1/2)]).2 = false ∧
    (ballStepEv BALL_DRIBBLE_CONFIG (ballStartTracking (mkBallHook BALL_DRIBBLE_CONFIG)) 0
        [ballDetectionAt (1/2)]).1.dribbleCount
      = (ballStartTracking (mkBallHook BALL_DRIBBLE_CONFIG)).dribbleCount ∧
    (ballRunEv BALL_DRIBBLE_CONFIG (ballStartTracking (mkBallHook BALL_DRIBBLE_CONFIG))
        [(0, []), (1, [ballDetectionAt (1/2)])]).1.dribbleCount
      = (ballStartTracking (mkBallHook BALL_DRIBBLE_CONFIG)).dribbleCount ∧
    (ballRunEv BALL_DRIBBLE_CONFIG (ballStartTracking (mkBallHook BALL_DRIBBLE_CONFIG))
        [(0, []), (1, [ballDetectionAt (1/2)])]).2 = [] := by
  have hfind : findBall [ballDetectionAt (1/2)] = some (ballDetectionAt (1/2)) := by
    norm_num +decide [findBall, ballDetectionAt]
  have h1 := first_ball_frame_init_spec.1 BALL_DRIBBLE_CONFIG
    (ballStartTracking (mkBallHook BALL_DRIBBLE_CONFIG)) 0 [ballDetectionAt (1/2)]
    (ballDetectionAt (1/2)) (by rfl) (by rfl) hfind
  have h2 := first_ball_frame_init_spec.2.1 BALL_DRIBBLE_CONFIG
    (ballStartTracking (mkBallHook BALL_DRIBBLE_CONFIG))
    [(0, []), (1, [ballDetectionAt (1/2)])] (by rfl) (by rfl)
    (by norm_num +decide [List.countP_cons, findBall, ballDetectionAt])
  exact ⟨h1.1, h1.2.1, h2.1, h2.2.2⟩

end Bloom
